import Mathlib

/-!
Verification of the party-game room engine (`src/unnamed/part_002`).

The development shallowly embeds the server's pure core: the relaxed
text matcher (`normalizeAnswer` / `tokenize` / `computeMatchRelaxed`),
the per-room state (`Room`, `Game`, `Player`) and the socket event
handlers (`joinRoomCore`, `setReady`, `hostStartGame`, `submitAnswers`,
`hostNextReveal`, `hostNextQuestion`, `disconnectPlayer`).

Modelling conventions:
* JavaScript objects / `Map`s become association lists with the same
  update semantics (`objSet` updates in place if the key exists, else
  appends — exactly `Map.set` / property assignment).
* `Math.random`-driven shuffling is passed in as an explicit
  `shuffle : List String → List String` argument; theorems that need
  the reshuffle to be a permutation state that as a hypothesis.
* JavaScript numbers holding scores and counters are `Nat` (the code
  only ever increments them by 1 from 0).
* The float comparison `jaccard >= 0.6` with `jaccard = inter/union` is
  modelled as `3 * union ≤ 5 * inter` (with the code's `union ? _ : 0`
  guard); for the set sizes realizable from answers both readings agree.
* `String.prototype.normalize("NFD")` followed by removal of combining
  marks U+0300–U+036F is modelled per character for Latin-1 letters
  (the only characters whose stripping is observable: every character
  outside `[a-z0-9\s]` is replaced by a space right afterwards).
-/

/-- ASCII codes: `'a'..'z'` is 97–122, `'0'..'9'` is 48–57.  The character
class kept by the regex replacement `[^a-z0-9\s]` → `" "`. -/
def isLowerAlnum (c : Char) : Bool :=
  (97 ≤ c.toNat && c.toNat ≤ 122) || (48 ≤ c.toNat && c.toNat ≤ 57)

/-- The JavaScript `\s` character class (WhiteSpace ∪ LineTerminator):
tab 9, LF 10, VT 11, FF 12, CR 13, space 32, NBSP 160, U+1680,
U+2000–U+200A, U+2028, U+2029, U+202F, U+205F, U+3000, U+FEFF. -/
def jsIsSpace (c : Char) : Bool :=
  c.toNat == 32 || c.toNat == 9 || c.toNat == 10 || c.toNat == 11 ||
  c.toNat == 12 || c.toNat == 13 || c.toNat == 160 || c.toNat == 0x1680 ||
  (0x2000 ≤ c.toNat && c.toNat ≤ 0x200a) || c.toNat == 0x2028 ||
  c.toNat == 0x2029 || c.toNat == 0x202f || c.toNat == 0x205f ||
  c.toNat == 0x3000 || c.toNat == 0xfeff

/-- Uppercase Latin-1 letters with diacritics and their lowercase forms,
as produced by `String.prototype.toLowerCase`. -/
def upperAccentToLower : List (Char × Char) :=
  [('À','à'),('Á','á'),('Â','â'),('Ã','ã'),('Ä','ä'),('Å','å'),('Ç','ç'),
   ('È','è'),('É','é'),('Ê','ê'),('Ë','ë'),('Ì','ì'),('Í','í'),('Î','î'),
   ('Ï','ï'),('Ñ','ñ'),('Ò','ò'),('Ó','ó'),('Ô','ô'),('Õ','õ'),('Ö','ö'),
   ('Ù','ù'),('Ú','ú'),('Û','û'),('Ü','ü'),('Ý','ý')]

/-- Per-character model of `str.toLowerCase()` for ASCII and Latin-1. -/
def jsToLower (c : Char) : Char :=
  if 65 ≤ c.toNat && c.toNat ≤ 90 then Char.ofNat (c.toNat + 32)
  else (((upperAccentToLower.find? (fun x => x.1 == c)).map (·.2)).getD c)

/-- Lowercase Latin-1 letters whose NFD decomposition is an ASCII base
letter followed by combining marks in U+0300–U+036F, with that base. -/
def accentToBase : List (Char × Char) :=
  [('à','a'),('á','a'),('â','a'),('ã','a'),('ä','a'),('å','a'),('ç','c'),
   ('è','e'),('é','e'),('ê','e'),('ë','e'),('ì','i'),('í','i'),('î','i'),
   ('ï','i'),('ñ','n'),('ò','o'),('ó','o'),('ô','o'),('õ','o'),('ö','o'),
   ('ù','u'),('ú','u'),('û','u'),('ü','u'),('ý','y'),('ÿ','y')]

/-- Per-character model of `stripDiacritics`
(`normalize("NFD").replace(/[̀-ͯ]/g, "")`). -/
def stripDiacritic (c : Char) : Char :=
  ((accentToBase.find? (fun x => x.1 == c)).map (·.2)).getD c

/-- The regex replacement `s.replace(/[^a-z0-9\s]/g, " ")`, per character. -/
def punctToSpace (c : Char) : Char :=
  if isLowerAlnum c || jsIsSpace c then c else ' '

/-- JavaScript `String.prototype.trim` on a character list. -/
def jsTrimList (l : List Char) : List Char :=
  ((l.dropWhile jsIsSpace).reverse.dropWhile jsIsSpace).reverse

/-- JavaScript `String.prototype.trim`. -/
def jsTrim (s : String) : String :=
  String.mk (jsTrimList s.data)

/-- Split a character list at every separator character (separators are
dropped; empty runs produce empty groups) — the semantics of
`String.prototype.split` with a one-character separator, and of
splitting on each `\s` character. -/
def wsSplit (p : Char → Bool) : List Char → List (List Char)
  | [] => [[]]
  | c :: rest =>
    let r := wsSplit p rest
    if p c then [] :: r
    else (c :: r.headI) :: r.tail

/-- Join groups with a single separator character between them. -/
def joinSep (sep : Char) : List (List Char) → List Char
  | [] => []
  | [g] => g
  | g :: gs => g ++ sep :: joinSep sep gs

/-- `s.replace(/\s+/g, " ").trim()` on a character list: keep the maximal
`\s`-free runs and rejoin them with single spaces. -/
def collapseSpaces (l : List Char) : List Char :=
  joinSep ' ' ((wsSplit jsIsSpace l).filter (fun g => !g.isEmpty))

/-- `normalizeAnswer`: lowercase, strip diacritics, replace every
character outside `[a-z0-9\s]` by a space, collapse whitespace, trim. -/
def normalizeAnswer (s : String) : String :=
  String.mk (collapseSpaces (((s.data.map jsToLower).map stripDiacritic).map punctToSpace))

/-- `STOPWORDS_NL` from the source. -/
def STOPWORDS_NL : List String :=
  ["de","het","een","en","of","maar","ik","jij","je","u","we","wij","jullie","hij","zij","ze",
   "mijn","jouw","zijn","haar","onze","hun","naar","van","voor","met","zonder","op","in","uit",
   "die","dat","dit","daar","hier","nog","eens","echt","heel","veel","altijd","nooit"]

/-- `tokenize`: normalize, split on single spaces, trim each token, keep
tokens of length ≥ 2 that are not stop words. -/
def tokenize (s : String) : List String :=
  let n := normalizeAnswer s
  if n = "" then []
  else
    (((wsSplit (fun c => c == ' ') n.data).map jsTrimList).map String.mk).filter
      (fun t => 2 ≤ t.length && !STOPWORDS_NL.contains t)

/-- JavaScript `hay.includes(needle)`: contiguous-substring test. -/
def jsIncludes : List Char → List Char → Bool
  | [], needle => needle.isEmpty
  | h :: t, needle => needle.isPrefixOf (h :: t) || jsIncludes t needle

/-- `computeMatchRelaxed` from the source: normalization gate, exact
equality, length-≥-4 substring containment either way, then Jaccard
similarity of the token sets at threshold 0.6 (`3 * union ≤ 5 * inter`). -/
def computeMatchRelaxed (a b : String) : Bool :=
  let na := normalizeAnswer a
  let nb := normalizeAnswer b
  if na = "" || nb = "" then false
  else if na = nb then true
  else if 4 ≤ na.length && jsIncludes nb.data na.data then true
  else if 4 ≤ nb.length && jsIncludes na.data nb.data then true
  else
    let ta := tokenize na
    let tb := tokenize nb
    if ta.isEmpty || tb.isEmpty then false
    else
      let inter := (ta.toFinset ∩ tb.toFinset).card
      let union := (ta.toFinset ∪ tb.toFinset).card
      if union = 0 then false else decide (3 * union ≤ 5 * inter)

example : computeMatchRelaxed "Parijs" "ik wil naar parijs" = true := by decide
example : computeMatchRelaxed "hond en kat" "kat hond" = true := by decide
example : computeMatchRelaxed "blauw" "rood" = false := by decide
example : computeMatchRelaxed "" "" = false := by decide
example : normalizeAnswer "  Café!!  déjà  " = "cafe deja" := by decide
example : tokenize "ik wil naar parijs" = ["wil", "parijs"] := by decide

/-! ### Character-class and normalization lemmas -/

theorem isLowerAlnum_not_space {c : Char} (h : isLowerAlnum c = true) :
    jsIsSpace c = false := by
  simp only [isLowerAlnum, Bool.or_eq_true, Bool.and_eq_true, decide_eq_true_eq] at h
  cases hb : jsIsSpace c with
  | false => rfl
  | true =>
    exfalso
    simp only [jsIsSpace, Bool.or_eq_true, Bool.and_eq_true, beq_iff_eq,
      decide_eq_true_eq] at hb
    omega

theorem find?_pair_none {pairs : List (Char × Char)} {c : Char}
    (hb : ∀ x ∈ pairs, 192 ≤ x.1.toNat) (hc : c.toNat < 192) :
    pairs.find? (fun x => x.1 == c) = none := by
  rw [List.find?_eq_none]
  intro x hx
  simp only [Bool.not_eq_true, beq_eq_false_iff_ne, ne_eq]
  intro h
  have := hb x hx
  rw [h] at this
  omega

theorem jsToLower_fixed {c : Char} (hlt : c.toNat < 192)
    (hup : ¬(65 ≤ c.toNat ∧ c.toNat ≤ 90)) : jsToLower c = c := by
  unfold jsToLower
  rw [if_neg, find?_pair_none (by decide) hlt]
  · rfl
  · simp only [Bool.and_eq_true, decide_eq_true_eq]
    exact hup

theorem stripDiacritic_fixed {c : Char} (hlt : c.toNat < 192) :
    stripDiacritic c = c := by
  unfold stripDiacritic
  rw [find?_pair_none (by decide) hlt]
  rfl

theorem isLowerAlnum_lt {c : Char} (h : isLowerAlnum c = true) :
    c.toNat < 192 ∧ ¬(65 ≤ c.toNat ∧ c.toNat ≤ 90) := by
  simp only [isLowerAlnum, Bool.or_eq_true, Bool.and_eq_true, decide_eq_true_eq] at h
  omega

theorem jsToLower_fixedAS {c : Char}
    (h : isLowerAlnum c = true ∨ c = ' ') : jsToLower c = c := by
  rcases h with h | h
  · exact jsToLower_fixed (isLowerAlnum_lt h).1 (isLowerAlnum_lt h).2
  · subst h; exact jsToLower_fixed (by decide) (by decide)

theorem stripDiacritic_fixedAS {c : Char}
    (h : isLowerAlnum c = true ∨ c = ' ') : stripDiacritic c = c := by
  rcases h with h | h
  · exact stripDiacritic_fixed (isLowerAlnum_lt h).1
  · subst h; exact stripDiacritic_fixed (by decide)

theorem punctToSpace_fixedAS {c : Char}
    (h : isLowerAlnum c = true ∨ c = ' ') : punctToSpace c = c := by
  unfold punctToSpace
  rcases h with h | h
  · rw [if_pos]; simp [h]
  · subst h; rw [if_pos]; decide

theorem punctToSpace_alnum_of_not_space {c : Char}
    (h : jsIsSpace (punctToSpace c) = false) : isLowerAlnum (punctToSpace c) = true := by
  by_cases hc : (isLowerAlnum c || jsIsSpace c) = true
  · rw [punctToSpace, if_pos hc] at h ⊢
    simp only [Bool.or_eq_true] at hc
    rcases hc with hc | hc
    · exact hc
    · exact absurd hc (by simp [h])
  · rw [punctToSpace, if_neg hc] at h
    exact absurd h (by decide)

/-! ### `wsSplit` / `joinSep` lemmas -/

theorem headI_mem_of_ne_nil {α : Type} [Inhabited α] {l : List α} (h : l ≠ []) :
    l.headI ∈ l := by
  cases l with
  | nil => exact absurd rfl h
  | cons a t => simp

theorem wsSplit_ne_nil (p : Char → Bool) (l : List Char) : wsSplit p l ≠ [] := by
  cases l with
  | nil => simp [wsSplit]
  | cons c rest =>
    simp only [wsSplit]
    split <;> simp

theorem mem_wsSplit_not_sep {p : Char → Bool} :
    ∀ {l : List Char}, ∀ g ∈ wsSplit p l, ∀ c ∈ g, p c = false := by
  intro l
  induction l with
  | nil =>
    intro g hg c hc
    simp only [wsSplit, List.mem_singleton] at hg
    subst hg; simp at hc
  | cons x rest ih =>
    intro g hg c hc
    by_cases hx : p x = true
    · rw [wsSplit, if_pos hx] at hg
      rw [List.mem_cons] at hg
      rcases hg with hg | hg
      · subst hg; simp at hc
      · exact ih g hg c hc
    · rw [wsSplit, if_neg hx] at hg
      have hne := wsSplit_ne_nil p rest
      rw [List.mem_cons] at hg
      rcases hg with hg | hg
      · subst hg
        rw [List.mem_cons] at hc
        rcases hc with hc | hc
        · subst hc; simpa using hx
        · exact ih (wsSplit p rest).headI (headI_mem_of_ne_nil hne) c hc
      · exact ih g (List.mem_of_mem_tail hg) c hc

theorem mem_of_mem_wsSplit {p : Char → Bool} :
    ∀ {l g : List Char}, g ∈ wsSplit p l → ∀ c ∈ g, c ∈ l := by
  intro l
  induction l with
  | nil =>
    intro g hg c hc
    simp only [wsSplit, List.mem_singleton] at hg
    subst hg; simp at hc
  | cons x rest ih =>
    intro g hg c hc
    by_cases hx : p x = true
    · rw [wsSplit, if_pos hx] at hg
      rw [List.mem_cons] at hg
      rcases hg with hg | hg
      · subst hg; simp at hc
      · exact List.mem_cons_of_mem _ (ih hg c hc)
    · rw [wsSplit, if_neg hx] at hg
      have hne := wsSplit_ne_nil p rest
      rw [List.mem_cons] at hg
      rcases hg with hg | hg
      · subst hg
        rw [List.mem_cons] at hc
        rcases hc with hc | hc
        · subst hc; exact List.mem_cons_self _ _
        · exact List.mem_cons_of_mem _ (ih (headI_mem_of_ne_nil hne) c hc)
      · exact List.mem_cons_of_mem _ (ih (List.mem_of_mem_tail hg) c hc)

theorem wsSplit_group_append {p : Char → Bool} {g : List Char}
    (hg : ∀ c ∈ g, p c = false) (l : List Char) :
    wsSplit p (g ++ l) = (g ++ (wsSplit p l).headI) :: (wsSplit p l).tail := by
  induction g with
  | nil =>
    simp only [List.nil_append]
    rcases h : wsSplit p l with _ | ⟨g0, gs⟩
    · exact absurd h (wsSplit_ne_nil p l)
    · simp
  | cons x g' ih =>
    have hx : p x = false := hg x (List.mem_cons_self _ _)
    have ih' := ih (fun c hc => hg c (List.mem_cons_of_mem _ hc))
    simp only [List.cons_append]
    rw [wsSplit, if_neg (by simp [hx]), ih']
    simp

theorem wsSplit_joinSep {p : Char → Bool} {sep : Char} (hsep : p sep = true) :
    ∀ gs : List (List Char), gs ≠ [] → (∀ g ∈ gs, ∀ c ∈ g, p c = false) →
    wsSplit p (joinSep sep gs) = gs := by
  intro gs
  induction gs with
  | nil => intro h; exact absurd rfl h
  | cons g gs' ih =>
    intro _ hchars
    rcases gs' with _ | ⟨g2, gs''⟩
    · show wsSplit p g = [g]
      have h1 := wsSplit_group_append
        (fun c hc => hchars g (List.mem_cons_self _ _) c hc) ([] : List Char)
      simpa [wsSplit] using h1
    · show wsSplit p (joinSep sep (g :: g2 :: gs'')) = g :: g2 :: gs''
      have hjoin : joinSep sep (g :: g2 :: gs'') = g ++ sep :: joinSep sep (g2 :: gs'') := rfl
      rw [hjoin, wsSplit_group_append (fun c hc => hchars g (List.mem_cons_self _ _) c hc)]
      have hrest : wsSplit p (sep :: joinSep sep (g2 :: gs'')) =
          [] :: wsSplit p (joinSep sep (g2 :: gs'')) := by
        rw [wsSplit, if_pos hsep]
      rw [hrest, ih (by simp) (fun h hh c hc => hchars h (List.mem_cons_of_mem _ hh) c hc)]
      simp

theorem mem_joinSep {sep : Char} :
    ∀ {gs : List (List Char)} {c : Char}, c ∈ joinSep sep gs →
    c = sep ∨ ∃ g ∈ gs, c ∈ g := by
  intro gs
  induction gs with
  | nil => intro c hc; simp [joinSep] at hc
  | cons g gs' ih =>
    intro c hc
    rcases gs' with _ | ⟨g2, gs''⟩
    · right; exact ⟨g, List.mem_cons_self _ _, hc⟩
    · have hsplit : c ∈ g ++ sep :: joinSep sep (g2 :: gs'') := hc
      rw [List.mem_append] at hsplit
      rcases hsplit with h | h
      · right; exact ⟨g, List.mem_cons_self _ _, h⟩
      · rw [List.mem_cons] at h
        rcases h with h | h
        · left; exact h
        · rcases ih h with h | ⟨g0, hg0, hc0⟩
          · left; exact h
          · right; exact ⟨g0, List.mem_cons_of_mem _ hg0, hc0⟩

/-! ### Normalization facts -/

theorem stringMk_data (s : String) : String.mk s.data = s := rfl

theorem normalize_chars {s : String} :
    ∀ c ∈ (normalizeAnswer s).data, isLowerAlnum c = true ∨ c = ' ' := by
  intro c hc
  have hc' : c ∈ collapseSpaces (((s.data.map jsToLower).map stripDiacritic).map punctToSpace) := hc
  unfold collapseSpaces at hc'
  rcases mem_joinSep hc' with h | ⟨g, hg, hcg⟩
  · right; exact h
  · left
    rw [List.mem_filter] at hg
    have hg1 := hg.1
    have hnospace : jsIsSpace c = false := mem_wsSplit_not_sep g hg1 c hcg
    have hcm : c ∈ ((s.data.map jsToLower).map stripDiacritic).map punctToSpace :=
      mem_of_mem_wsSplit hg1 c hcg
    rw [List.mem_map] at hcm
    rcases hcm with ⟨x, _, hx⟩
    subst hx
    exact punctToSpace_alnum_of_not_space hnospace

theorem collapseSpaces_joinSep {gs : List (List Char)}
    (hne : ∀ g ∈ gs, g ≠ [])
    (hch : ∀ g ∈ gs, ∀ c ∈ g, jsIsSpace c = false) :
    collapseSpaces (joinSep ' ' gs) = joinSep ' ' gs := by
  rcases gs with _ | ⟨g0, gs'⟩
  · rfl
  · unfold collapseSpaces
    rw [wsSplit_joinSep (by decide) _ (by simp) hch]
    congr 1
    rw [List.filter_eq_self]
    intro g hg
    simpa using hne g hg

theorem normalizeAnswer_idem (s : String) :
    normalizeAnswer (normalizeAnswer s) = normalizeAnswer s := by
  have hch := @normalize_chars s
  have h1 : (normalizeAnswer s).data.map jsToLower = (normalizeAnswer s).data := by
    rw [List.map_congr_left (fun c hc => jsToLower_fixedAS (hch c hc))]
    exact List.map_id' _
  have h2 : (normalizeAnswer s).data.map stripDiacritic = (normalizeAnswer s).data := by
    rw [List.map_congr_left (fun c hc => stripDiacritic_fixedAS (hch c hc))]
    exact List.map_id' _
  have h3 : (normalizeAnswer s).data.map punctToSpace = (normalizeAnswer s).data := by
    rw [List.map_congr_left (fun c hc => punctToSpace_fixedAS (hch c hc))]
    exact List.map_id' _
  have h4 : collapseSpaces (normalizeAnswer s).data = (normalizeAnswer s).data := by
    have hrepr : (normalizeAnswer s).data = joinSep ' '
        ((wsSplit jsIsSpace (((s.data.map jsToLower).map stripDiacritic).map punctToSpace)).filter
          (fun g => !g.isEmpty)) := rfl
    rw [hrepr]
    apply collapseSpaces_joinSep
    · intro g hg
      rw [List.mem_filter] at hg
      simpa using hg.2
    · intro g hg c hc
      rw [List.mem_filter] at hg
      exact mem_wsSplit_not_sep g hg.1 c hc
  show String.mk (collapseSpaces
    ((((normalizeAnswer s).data.map jsToLower).map stripDiacritic).map punctToSpace)) =
    normalizeAnswer s
  rw [h1, h2, h3, h4, stringMk_data]

theorem dropWhile_eq_self_of {α : Type} {p : α → Bool} {l : List α}
    (h : ∀ c ∈ l, p c = false) : l.dropWhile p = l := by
  cases l with
  | nil => rfl
  | cons a t =>
    rw [List.dropWhile_cons, if_neg]
    simp [h a (List.mem_cons_self a t)]

theorem jsTrimList_fixed {l : List Char} (h : ∀ c ∈ l, jsIsSpace c = false) :
    jsTrimList l = l := by
  unfold jsTrimList
  rw [dropWhile_eq_self_of h,
    dropWhile_eq_self_of (fun c hc => h c (List.mem_reverse.mp hc)),
    List.reverse_reverse]

/-- The token list the spec describes for an already-normalized string:
split on single spaces, drop tokens shorter than 2 characters or in the
stop-word list. -/
def specTokensOf (n : String) : List String :=
  ((wsSplit (fun c => c == ' ') n.data).map String.mk).filter
    (fun t => 2 ≤ t.length && !STOPWORDS_NL.contains t)

theorem tokenize_normalized (s : String) :
    tokenize (normalizeAnswer s) = specTokensOf (normalizeAnswer s) := by
  unfold tokenize specTokensOf
  rw [normalizeAnswer_idem]
  by_cases h0 : normalizeAnswer s = ""
  · rw [if_pos h0, h0]
    decide
  · rw [if_neg h0]
    congr 1
    rw [List.map_map]
    apply List.map_congr_left
    intro g hg
    show String.mk (jsTrimList g) = String.mk g
    congr 1
    apply jsTrimList_fixed
    intro c hcg
    have h1 : (fun c => c == ' ') c = false := mem_wsSplit_not_sep g hg c hcg
    have h2 : c ∈ (normalizeAnswer s).data := mem_of_mem_wsSplit hg c hcg
    rcases normalize_chars c h2 with h3 | h3
    · exact isLowerAlnum_not_space h3
    · rw [h3] at h1; simp at h1

/-! ### Spec-side matcher (C2) and symmetry (C9) -/

/-- The matcher exactly as the spec words it: normalize both (empty on
either side means no match); exact equality of the normalized strings
matches; either normalized string of length ≥ 4 being a contiguous
substring of the other matches; otherwise tokenize both normalized
strings on single spaces, drop tokens shorter than 2 characters or in
the stop-word list, require both token sets non-empty, and match iff
the Jaccard similarity of the token sets is at least 0.6. -/
def matcherSpec (target predicted : String) : Bool :=
  let nt := normalizeAnswer target
  let np := normalizeAnswer predicted
  if nt = "" ∨ np = "" then false
  else if nt = np then true
  else if (4 ≤ nt.length ∧ jsIncludes np.data nt.data) ∨
          (4 ≤ np.length ∧ jsIncludes nt.data np.data) then true
  else
    let st := specTokensOf nt
    let sp := specTokensOf np
    if st = [] ∨ sp = [] then false
    else decide (3 * (st.toFinset ∪ sp.toFinset).card ≤ 5 * (st.toFinset ∩ sp.toFinset).card)

set_option maxHeartbeats 1000000 in
/-- C2: for every pair of input strings the matcher implements exactly
the rule cascade the spec describes: normalization gate (either side
empty ⇒ false), exact equality, substring containment of a normalized
string of length ≥ 4, then Jaccard ≥ 0.6 of the stop-word-filtered
token sets, with empty token set on either side ⇒ false. -/
theorem c2_matcher_rule_cascade (a b : String) :
    computeMatchRelaxed a b = matcherSpec a b := by
  simp only [computeMatchRelaxed, matcherSpec]
  by_cases h1 : normalizeAnswer a = ""
  · have l1 : ((decide (normalizeAnswer a = "") || decide (normalizeAnswer b = "")) = true) := by
      simp [h1]
    rw [if_pos l1, if_pos (Or.inl h1)]
  by_cases h2 : normalizeAnswer b = ""
  · have l2 : ((decide (normalizeAnswer a = "") || decide (normalizeAnswer b = "")) = true) := by
      simp [h2]
    rw [if_pos l2, if_pos (Or.inr h2)]
  have e1 : ¬ ((decide (normalizeAnswer a = "") || decide (normalizeAnswer b = "")) = true) := by
    simp [h1, h2]
  have e2 : ¬ (normalizeAnswer a = "" ∨ normalizeAnswer b = "") := fun h => h.elim h1 h2
  rw [if_neg e1, if_neg e2]
  by_cases h3 : normalizeAnswer a = normalizeAnswer b
  · rw [if_pos h3, if_pos h3]
  rw [if_neg h3, if_neg h3]
  have hb4 : ((decide (4 ≤ (normalizeAnswer a).length) &&
      jsIncludes (normalizeAnswer b).data (normalizeAnswer a).data) = true) ↔
      (4 ≤ (normalizeAnswer a).length ∧
        jsIncludes (normalizeAnswer b).data (normalizeAnswer a).data = true) := by
    simp [Bool.and_eq_true]
  have hb5 : ((decide (4 ≤ (normalizeAnswer b).length) &&
      jsIncludes (normalizeAnswer a).data (normalizeAnswer b).data) = true) ↔
      (4 ≤ (normalizeAnswer b).length ∧
        jsIncludes (normalizeAnswer a).data (normalizeAnswer b).data = true) := by
    simp [Bool.and_eq_true]
  by_cases h4 : 4 ≤ (normalizeAnswer a).length ∧
      jsIncludes (normalizeAnswer b).data (normalizeAnswer a).data = true
  · have hor : (4 ≤ (normalizeAnswer a).length ∧
        jsIncludes (normalizeAnswer b).data (normalizeAnswer a).data = true) ∨
        (4 ≤ (normalizeAnswer b).length ∧
          jsIncludes (normalizeAnswer a).data (normalizeAnswer b).data = true) := Or.inl h4
    rw [if_pos (hb4.mpr h4), if_pos hor]
  by_cases h5 : 4 ≤ (normalizeAnswer b).length ∧
      jsIncludes (normalizeAnswer a).data (normalizeAnswer b).data = true
  · have hor : (4 ≤ (normalizeAnswer a).length ∧
        jsIncludes (normalizeAnswer b).data (normalizeAnswer a).data = true) ∨
        (4 ≤ (normalizeAnswer b).length ∧
          jsIncludes (normalizeAnswer a).data (normalizeAnswer b).data = true) := Or.inr h5
    have hn4 : ¬ ((decide (4 ≤ (normalizeAnswer a).length) &&
        jsIncludes (normalizeAnswer b).data (normalizeAnswer a).data) = true) :=
      fun hh => h4 (hb4.mp hh)
    rw [if_neg hn4, if_pos (hb5.mpr h5), if_pos hor]
  have hn4 : ¬ ((decide (4 ≤ (normalizeAnswer a).length) &&
      jsIncludes (normalizeAnswer b).data (normalizeAnswer a).data) = true) :=
    fun hh => h4 (hb4.mp hh)
  have hn5 : ¬ ((decide (4 ≤ (normalizeAnswer b).length) &&
      jsIncludes (normalizeAnswer a).data (normalizeAnswer b).data) = true) :=
    fun hh => h5 (hb5.mp hh)
  have hnor : ¬ ((4 ≤ (normalizeAnswer a).length ∧
      jsIncludes (normalizeAnswer b).data (normalizeAnswer a).data = true) ∨
      (4 ≤ (normalizeAnswer b).length ∧
        jsIncludes (normalizeAnswer a).data (normalizeAnswer b).data = true)) :=
    fun h => h.elim h4 h5
  rw [if_neg hn4, if_neg hn5, if_neg hnor]
  rw [tokenize_normalized a, tokenize_normalized b]
  by_cases h6 : specTokensOf (normalizeAnswer a) = []
  · have l6 : (((specTokensOf (normalizeAnswer a)).isEmpty ||
        (specTokensOf (normalizeAnswer b)).isEmpty) = true) := by
      rw [h6]; rfl
    have lor : specTokensOf (normalizeAnswer a) = [] ∨
        specTokensOf (normalizeAnswer b) = [] := Or.inl h6
    rw [if_pos l6, if_pos lor]
  by_cases h7 : specTokensOf (normalizeAnswer b) = []
  · have l7 : (((specTokensOf (normalizeAnswer a)).isEmpty ||
        (specTokensOf (normalizeAnswer b)).isEmpty) = true) := by
      rw [h7]; simp
    have lor : specTokensOf (normalizeAnswer a) = [] ∨
        specTokensOf (normalizeAnswer b) = [] := Or.inr h7
    rw [if_pos l7, if_pos lor]
  have e3 : ¬ (((specTokensOf (normalizeAnswer a)).isEmpty ||
      (specTokensOf (normalizeAnswer b)).isEmpty) = true) := by
    intro hh
    rw [Bool.or_eq_true] at hh
    rcases hh with hh | hh
    · exact h6 (List.isEmpty_iff.mp hh)
    · exact h7 (List.isEmpty_iff.mp hh)
  have e4 : ¬ (specTokensOf (normalizeAnswer a) = [] ∨
      specTokensOf (normalizeAnswer b) = []) := fun h => h.elim h6 h7
  have hunion : ¬ (((specTokensOf (normalizeAnswer a)).toFinset ∪
      (specTokensOf (normalizeAnswer b)).toFinset).card = 0) := by
    rcases List.exists_mem_of_ne_nil _ h6 with ⟨t0, ht0⟩
    intro hcard
    rw [Finset.card_eq_zero] at hcard
    have hmem : t0 ∈ (specTokensOf (normalizeAnswer a)).toFinset ∪
        (specTokensOf (normalizeAnswer b)).toFinset :=
      Finset.mem_union_left _ (List.mem_toFinset.mpr ht0)
    rw [hcard] at hmem
    simp at hmem
  rw [if_neg e3, if_neg e4, if_neg hunion]

set_option maxHeartbeats 1000000 in
/-- C9: the matcher is symmetric — `matches(a, b) = matches(b, a)` for
every pair of strings. -/
theorem c9_matcher_symmetric (a b : String) :
    computeMatchRelaxed a b = computeMatchRelaxed b a := by
  simp only [computeMatchRelaxed]
  by_cases h1 : normalizeAnswer a = ""
  · have l1 : ((decide (normalizeAnswer a = "") || decide (normalizeAnswer b = "")) = true) := by
      simp [h1]
    have l1' : ((decide (normalizeAnswer b = "") || decide (normalizeAnswer a = "")) = true) := by
      simp [h1]
    rw [if_pos l1, if_pos l1']
  by_cases h2 : normalizeAnswer b = ""
  · have l2 : ((decide (normalizeAnswer a = "") || decide (normalizeAnswer b = "")) = true) := by
      simp [h2]
    have l2' : ((decide (normalizeAnswer b = "") || decide (normalizeAnswer a = "")) = true) := by
      simp [h2]
    rw [if_pos l2, if_pos l2']
  have e1 : ¬ ((decide (normalizeAnswer a = "") || decide (normalizeAnswer b = "")) = true) := by
    simp [h1, h2]
  have e2 : ¬ ((decide (normalizeAnswer b = "") || decide (normalizeAnswer a = "")) = true) := by
    simp [h1, h2]
  rw [if_neg e1, if_neg e2]
  by_cases h3 : normalizeAnswer a = normalizeAnswer b
  · rw [if_pos h3, if_pos h3.symm]
  have h3' : ¬ (normalizeAnswer b = normalizeAnswer a) := fun h => h3 h.symm
  rw [if_neg h3, if_neg h3']
  by_cases h4 : (decide (4 ≤ (normalizeAnswer a).length) &&
      jsIncludes (normalizeAnswer b).data (normalizeAnswer a).data) = true
  · by_cases h5 : (decide (4 ≤ (normalizeAnswer b).length) &&
        jsIncludes (normalizeAnswer a).data (normalizeAnswer b).data) = true
    · rw [if_pos h4, if_pos h5]
    · rw [if_pos h4, if_neg h5, if_pos h4]
  by_cases h5 : (decide (4 ≤ (normalizeAnswer b).length) &&
      jsIncludes (normalizeAnswer a).data (normalizeAnswer b).data) = true
  · rw [if_neg h4, if_pos h5, if_pos h5]
  rw [if_neg h4, if_neg h5, if_neg h5, if_neg h4,
    Bool.or_comm ((tokenize (normalizeAnswer b)).isEmpty) ((tokenize (normalizeAnswer a)).isEmpty),
    Finset.inter_comm ((tokenize (normalizeAnswer b)).toFinset) ((tokenize (normalizeAnswer a)).toFinset),
    Finset.union_comm ((tokenize (normalizeAnswer b)).toFinset) ((tokenize (normalizeAnswer a)).toFinset)]

/-! ### Room data model (from `createRoom` and the handlers) -/

/-- Player ids are strings (`"p_" + random suffix`). -/
abbrev Pid := String

/-- JavaScript object / `Map` lookup on an association list. -/
def objGet {β : Type} (m : List (Pid × β)) (k : Pid) : Option β :=
  (m.find? (fun e => e.1 == k)).map (·.2)

/-- JavaScript object / `Map` update: overwrite in place if the key is
present, append otherwise (`Map.set`, `obj[k] = v`). -/
def objSet {β : Type} (m : List (Pid × β)) (k : Pid) (v : β) : List (Pid × β) :=
  match m with
  | [] => [(k, v)]
  | e :: rest => if e.1 = k then (k, v) :: rest else e :: objSet rest k v

/-- A joined player (`room.players` entry values). -/
structure Player where
  id : Pid
  name : String
  ready : Bool
  connected : Bool
  score : Nat
  socketId : String
  deriving DecidableEq

/-- `room.game.state`. -/
inductive Phase where
  | LOBBY
  | ANSWERING
  | REVEAL
  | SCOREBOARD
  deriving DecidableEq

/-- One stored submission: `{ self, predicts: {[otherId]: text} }`. -/
structure Submission where
  self : String
  predicts : List (Pid × String)
  deriving DecidableEq

/-- The scored-pairs key `r{round}q{question}:{predictorId}->{targetId}`
(player ids never contain `:` or `->`, so the string key is exactly this
tuple). -/
structure ScoreKey where
  round : Nat
  question : Nat
  predictor : Pid
  target : Pid
  deriving DecidableEq

/-- `room.game`. -/
structure Game where
  state : Phase
  round : Nat
  question : Nat
  questionsPerRound : Nat
  prompt : Option String
  promptPool : List String
  submissions : List (Pid × Submission)
  revealOrder : List Pid
  revealIndex : Nat
  matchMap : List (Pid × List (Pid × Bool))
  scoredPairs : List ScoreKey
  deriving DecidableEq

/-- One room (code, theme, players in insertion order, game state). -/
structure Room where
  code : String
  theme : String
  players : List (Pid × Player)
  game : Game
  deriving DecidableEq

/-- `MAX_PLAYERS` / `MAX_PLAYERS_DATING` / `QUESTIONS_PER_ROUND`. -/
def MAX_PLAYERS : Nat := 6

def MAX_PLAYERS_DATING : Nat := 2

def QUESTIONS_PER_ROUND : Nat := 10

/-- The per-theme prompt lists (`THEMES`). -/
def THEMES : List (String × List String) :=
  [("default",
    ["Ooit wil ik nog eens op vakantie naar …",
     "Als ik voor de rest van mijn leven nog één keuken mag kiezen, dan kies ik de … keuken",
     "Ik zou later graag willen wonen in …",
     "Mijn grootste guilty pleasure is …",
     "Ik kan echt niet zonder …",
     "Als ik morgen €1.000.000 win, dan koop ik als eerste …",
     "Mijn meest random talent is …",
     "Mijn grootste irritant in het verkeer is …",
     "Op een zonnige dag op het terras, bestel ik ...",
     "Het eerste wat ik doe als ik wakker word is ...",
     "Als ik een superkracht mag kiezen, dan is dat ...",
     "Mijn favoriete genre muziek is ...",
     "Mijn favoriete kleur is ..."]),
   ("holidays",
    ["Mijn favoriete vakantiebestemming is …",
     "Op vakantie kan ik echt niet zonder …",
     "Het beste vakantiegevoel krijg ik van …",
     "Mijn droomvakantie is …",
     "Op vakantie eet ik het liefst …",
     "Het leukste aan vakantie is …",
     "Mijn ideale vakantie dag begint met …",
     "Op vakantie mis ik het meest …",
     "Mijn favoriete vakantieherinnering is …",
     "De perfecte vakantie is …",
     "Op vakantie lees ik graag …",
     "Mijn vakantie guilty pleasure is …",
     "Het beste vakantiegeschenk is …"]),
   ("18+",
    ["Ik heb ooit een threesome gehad",
     "Ik heb ooit seks gehad in het openbaar",
     "Ik heb ooit een one-night stand gehad",
     "Ik heb ooit geflirt met iemand terwijl ik in een relatie zat",
     "Ik heb ooit iemand gezoend die ik niet kende",
     "Ik heb ooit een sexting gestuurd",
     "Ik heb ooit gedacht aan een collega tijdens seks",
     "Ik heb ooit een vriend(in) gehad met voordelen",
     "Ik heb ooit iemand gezoend van hetzelfde geslacht",
     "Ik heb ooit een date gehad via een dating app",
     "Ik heb ooit seks gehad op een ongewone plek",
     "Ik heb ooit iemand afgewezen omdat ze te saai waren in bed",
     "Ik heb ooit een fantasie gehad over een vriend(in)"]),
   ("dating",
    ["Mijn ideale date is …",
     "Het belangrijkste in een relatie is …",
     "Mijn grootste turn-on is …",
     "Mijn grootste turn-off is …",
     "Het perfecte eerste date gesprek gaat over …",
     "Mijn favoriete manier om te flirten is …",
     "Het meest romantische dat iemand voor me heeft gedaan is …",
     "Mijn droompartner is iemand die …",
     "Het leukste aan daten is …",
     "Mijn favoriete date locatie is …",
     "Het meest belangrijke in een eerste indruk is …",
     "Mijn ideale avond samen is …",
     "Het beste daten advies dat ik ooit kreeg was …"]),
   ("friendgroup",
    ["Met mijn vrienden kan ik altijd …",
     "Mijn favoriete vriendengroep activiteit is …",
     "Het beste aan mijn vrienden is …",
     "Met vrienden maak ik het liefst …",
     "Mijn favoriete herinnering met vrienden is …",
     "Het leukste aan vrienden is …",
     "Met vrienden ga ik het liefst naar …",
     "Mijn favoriete vriendengroep traditie is …",
     "Het beste vrienden moment was toen …",
     "Met vrienden deel ik altijd …",
     "Mijn favoriete vriendengroep inside joke gaat over …",
     "Het leukste aan onze vriendengroep is …",
     "Mijn favoriete vriendengroep avond bestaat uit …"]),
   ("work",
    ["Mijn favoriete werkdag is …",
     "Het beste aan mijn werk is …",
     "Mijn ideale collega is iemand die …",
     "Het leukste aan werken met collega's is …",
     "Mijn favoriete werkactiviteit is …",
     "Het beste team moment was toen …",
     "Mijn ideale werkdag begint met …",
     "Het leukste aan mijn team is …",
     "Mijn favoriete koffiepauze gesprek gaat over …",
     "Het beste aan samenwerken is …",
     "Mijn favoriete werk traditie is …",
     "Het leukste aan mijn collega's is …",
     "Mijn ideale werk omgeving heeft …"])]

/-- `THEMES[name]` lookup. -/
def themeLookup (t : String) : Option (List String) :=
  ((THEMES.find? (fun e => e.1 == t)).map (·.2))

/-- `THEMES[room.theme] || THEMES.default`. -/
def themeOrDefault (t : String) : List String :=
  (themeLookup t).getD ((themeLookup "default").getD [])

/-- Theme-dependent player cap:
`room.theme === "dating" ? MAX_PLAYERS_DATING : MAX_PLAYERS`. -/
def maxPlayersFor (t : String) : Nat :=
  if t = "dating" then MAX_PLAYERS_DATING else MAX_PLAYERS

/-- `createRoom(theme)`: fresh room in LOBBY.  The random collision-free
code is passed in; an unknown theme falls back to `"default"`. -/
def createRoom (code : String) (theme : String) : Room :=
  { code := code
    theme := if (themeLookup theme).isSome then theme else "default"
    players := []
    game :=
      { state := .LOBBY
        round := 1
        question := 0
        questionsPerRound := QUESTIONS_PER_ROUND
        prompt := none
        promptPool := []
        submissions := []
        revealOrder := []
        revealIndex := 0
        matchMap := []
        scoredPairs := [] } }

/-- `startNewQuestion(room)`: refill the pool (reshuffling the theme's
prompts) when empty, pop the first prompt, enter ANSWERING, clear
submissions / match results / scored pairs, snapshot the reveal order
from the current player ids, reset the cursor. -/
def startNewQuestion (shuffle : List String → List String) (room : Room) : Room :=
  let pool0 := if room.game.promptPool.isEmpty then shuffle (themeOrDefault room.theme)
               else room.game.promptPool
  { room with game :=
    { room.game with
        prompt := pool0.head?
        promptPool := pool0.tail
        state := .ANSWERING
        submissions := []
        revealOrder := room.players.map (·.1)
        revealIndex := 0
        matchMap := []
        scoredPairs := [] } }

/-- Join rejection reasons surfaced to the caller. -/
inductive JoinError where
  | roomNotFound
  | roomFull
  | emptyName
  deriving DecidableEq

/-- The room-level part of the `joinRoom` handler: capacity check, name
sanitization (trim then cap at 24 characters), then insertion of a new
player with `ready=false`, `connected=true`, `score=0`.  The generated
player id and the caller's socket id are passed in. -/
def joinRoomCore (room : Room) (name : String) (id : Pid) (sock : String) :
    Except JoinError Room :=
  if maxPlayersFor room.theme ≤ room.players.length then .error .roomFull
  else
    let trimmed := (jsTrim name).take 24
    if trimmed = "" then .error .emptyName
    else
      let p : Player := { id := id, name := trimmed, ready := false,
                          connected := true, score := 0, socketId := sock }
      .ok { room with players := objSet room.players id p }

/-- `getRoom`: registry lookup after upper-casing the code (ASCII). -/
def getRoom (rooms : List (String × Room)) (code : String) : Option Room :=
  ((rooms.find? (fun e => e.1 == String.mk (code.data.map Char.toUpper))).map (·.2))

/-- The full `joinRoom` handler over the registry: resolves the room,
then either emits a join error (leaving every room untouched) or stores
the updated room. -/
def joinRoomHandler (rooms : List (String × Room)) (code name : String)
    (id : Pid) (sock : String) : List (String × Room) × Option JoinError :=
  match getRoom rooms code with
  | none => (rooms, some .roomNotFound)
  | some room =>
    match joinRoomCore room name id sock with
    | .error e => (rooms, some e)
    | .ok room' =>
      (rooms.map (fun e => if e.1 = room'.code then (e.1, room') else e), none)

/-- `setReady`: flips the caller's ready flag after the socket check. -/
def setReady (room : Room) (playerId : Pid) (sock : String) (ready : Bool) : Room :=
  match objGet room.players playerId with
  | none => room
  | some p =>
    if p.socketId ≠ sock then room
    else { room with players := objSet room.players playerId { p with ready := ready } }

/-- `hostStartGame`: requires ≥ 2 connected players, all of them ready;
resets every player's score to 0, sets question 1, reshuffles the prompt
pool from the theme's prompts and starts the first question. -/
def hostStartGame (shuffle : List String → List String) (room : Room) : Room :=
  let connected := (room.players.map (·.2)).filter (·.connected)
  if connected.length < 2 then room
  else if !(connected.all (·.ready)) then room
  else
    let room' := { room with
      players := room.players.map (fun e => (e.1, { e.2 with score := 0 }))
      game := { room.game with
        question := 1
        questionsPerRound := QUESTIONS_PER_ROUND
        promptPool := shuffle (themeOrDefault room.theme) } }
    startNewQuestion shuffle room'

/-! ### Submit-answer machinery -/

/-- `String(x || "").trim().slice(0, 80)` — the submission sanitizer. -/
def sanitize80 (s : String) : String :=
  (jsTrim s).take 80

/-- The prediction-cleaning loop: keep only targets that are current
player ids, sanitizing each text (`cleanPredicts`). -/
def cleanPredictsFn (players : List (Pid × Player)) (raw : List (Pid × String)) :
    List (Pid × String) :=
  raw.foldl (fun acc e =>
    if (objGet players e.1).isSome then objSet acc e.1 (sanitize80 e.2) else acc) []

/-- `room.game.submissions?.[t]?.self ?? ""`. -/
def selfOf (subs : List (Pid × Submission)) (t : Pid) : String :=
  ((objGet subs t).map (·.self)).getD ""

/-- `room.game.submissions?.[p]?.predicts?.[t] ?? ""`. -/
def predictionOf (subs : List (Pid × Submission)) (p t : Pid) : String :=
  match objGet subs p with
  | none => ""
  | some sub => (objGet sub.predicts t).getD ""

/-- One row of the match map: verdicts of every predictor about `t`. -/
def matchRow (subs : List (Pid × Submission)) (order : List Pid) (t : Pid) :
    List (Pid × Bool) :=
  order.foldl (fun row pr =>
    if pr = t then row
    else objSet row pr (computeMatchRelaxed (selfOf subs t) (predictionOf subs pr t))) []

/-- The match-map construction loop of `submitAnswers`. -/
def buildMatchMap (subs : List (Pid × Submission)) (order : List Pid) :
    List (Pid × List (Pid × Bool)) :=
  order.foldl (fun mm t => objSet mm t (matchRow subs order t)) []

/-- `room.game.matchMap?.[t]?.[p] ?? false`. -/
def matchOf (mm : List (Pid × List (Pid × Bool))) (t p : Pid) : Bool :=
  match objGet mm t with
  | none => false
  | some row => (objGet row p).getD false

/-- `predictor.score += 1` guarded by `room.players.get(predictorId)`. -/
def bumpScore (players : List (Pid × Player)) (pr : Pid) : List (Pid × Player) :=
  match objGet players pr with
  | none => players
  | some p => objSet players pr { p with score := p.score + 1 }

/-- One step of the scoring loop: skip self-pairs, check-then-set the
scored key, award a point on a positive verdict. -/
def scoreStep (r q : Nat) (mm : List (Pid × List (Pid × Bool))) (t : Pid)
    (acc : List (Pid × Player) × List ScoreKey) (pr : Pid) :
    List (Pid × Player) × List ScoreKey :=
  if pr = t then acc
  else if (⟨r, q, pr, t⟩ : ScoreKey) ∈ acc.2 then acc
  else
    let players' := if matchOf mm t pr then bumpScore acc.1 pr else acc.1
    (players', (⟨r, q, pr, t⟩ : ScoreKey) :: acc.2)

/-- The inner scoring loop (all predictors for one target). -/
def scoreTarget (r q : Nat) (mm : List (Pid × List (Pid × Bool))) (t : Pid)
    (order : List Pid) (acc : List (Pid × Player) × List ScoreKey) :
    List (Pid × Player) × List ScoreKey :=
  order.foldl (scoreStep r q mm t) acc

/-- The full scoring double loop of `submitAnswers`. -/
def applyScoring (r q : Nat) (mm : List (Pid × List (Pid × Bool)))
    (order : List Pid) (players : List (Pid × Player)) (scored : List ScoreKey) :
    List (Pid × Player) × List ScoreKey :=
  order.foldl (fun acc t => scoreTarget r q mm t order acc) (players, scored)

/-- The `submitAnswers` handler: only in ANSWERING, only for a known
player on its own socket; sanitizes and upserts the submission; when the
submission count reaches the player count, builds the match map over the
reveal order, runs the at-most-once scoring and enters REVEAL at cursor 0. -/
def submitAnswers (room : Room) (playerId : Pid) (sock : String)
    (self : String) (predicts : List (Pid × String)) : Room :=
  if room.game.state ≠ .ANSWERING then room
  else
    match objGet room.players playerId with
    | none => room
    | some p =>
      if p.socketId ≠ sock then room
      else
        let cleanSelf := sanitize80 self
        let cleanPredicts := cleanPredictsFn room.players predicts
        let subs' := objSet room.game.submissions playerId
          ⟨cleanSelf, cleanPredicts⟩
        if subs'.length = room.players.length then
          let mm := buildMatchMap subs' room.game.revealOrder
          let ps := applyScoring room.game.round room.game.question mm
            room.game.revealOrder room.players room.game.scoredPairs
          { room with
            players := ps.1
            game := { room.game with
              submissions := subs'
              matchMap := mm
              scoredPairs := ps.2
              state := .REVEAL
              revealIndex := 0 } }
        else
          { room with game := { room.game with submissions := subs' } }

/-- `hostNextReveal`: only in REVEAL; increments the cursor and enters
SCOREBOARD when it reaches the reveal-order length. -/
def hostNextReveal (room : Room) : Room :=
  if room.game.state ≠ .REVEAL then room
  else
    let idx := room.game.revealIndex + 1
    if room.game.revealOrder.length ≤ idx then
      { room with game := { room.game with revealIndex := idx, state := .SCOREBOARD } }
    else
      { room with game := { room.game with revealIndex := idx } }

/-- `hostNextQuestion`: only in SCOREBOARD; either advances to the next
question of the round, or closes the round (back to LOBBY, ready flags
cleared, counters reset). -/
def hostNextQuestion (shuffle : List String → List String) (room : Room) : Room :=
  if room.game.state ≠ .SCOREBOARD then room
  else if room.game.question < room.game.questionsPerRound then
    startNewQuestion shuffle
      { room with game := { room.game with question := room.game.question + 1 } }
  else
    { room with
      players := room.players.map (fun e => (e.1, { e.2 with ready := false }))
      game := { room.game with
        round := room.game.round + 1
        question := 0
        prompt := none
        promptPool := []
        submissions := []
        revealOrder := []
        revealIndex := 0
        matchMap := []
        scoredPairs := []
        state := .LOBBY } }

/-- The `disconnect` handler: flags the player as disconnected and not
ready (players are never removed). -/
def disconnectPlayer (room : Room) (playerId : Pid) : Room :=
  match objGet room.players playerId with
  | none => room
  | some p =>
    let p' := { p with connected := false, ready := false }
    { room with players := objSet room.players playerId p' }

/-! ### Events and reachability -/

/-- One inbound room event (the socket handlers addressed at one room).
Shuffle outcomes are carried inside the event. -/
inductive Event where
  | join (id : Pid) (sock name : String)
  | ready (playerId : Pid) (sock : String) (ready : Bool)
  | startGame (shuffle : List String → List String)
  | submit (playerId : Pid) (sock self : String) (predicts : List (Pid × String))
  | nextReveal
  | nextQuestion (shuffle : List String → List String)
  | disconnect (playerId : Pid)

/-- Apply one event to one room (join failures leave the room unchanged). -/
def step (e : Event) (room : Room) : Room :=
  match e with
  | .join id sock name =>
    match joinRoomCore room name id sock with
    | .ok room' => room'
    | .error _ => room
  | .ready playerId sock r => setReady room playerId sock r
  | .startGame shuffle => hostStartGame shuffle room
  | .submit playerId sock self predicts => submitAnswers room playerId sock self predicts
  | .nextReveal => hostNextReveal room
  | .nextQuestion shuffle => hostNextQuestion shuffle room
  | .disconnect playerId => disconnectPlayer room playerId

/-- Rooms reachable from creation by any event sequence. -/
inductive Reachable : Room → Prop where
  | init (code theme : String) : Reachable (createRoom code theme)
  | step (e : Event) {r : Room} : Reachable r → Reachable (step e r)

/-! ### Association-list lemmas -/

theorem objGet_nil {β : Type} (k : Pid) : objGet ([] : List (Pid × β)) k = none := rfl

theorem objGet_cons_self {β : Type} {rest : List (Pid × β)} {k : Pid} {v : β} :
    objGet ((k, v) :: rest) k = some v := by
  simp [objGet, List.find?_cons_of_pos]

theorem objGet_cons_ne {β : Type} {e : Pid × β} {rest : List (Pid × β)} {k : Pid}
    (h : e.1 ≠ k) : objGet (e :: rest) k = objGet rest k := by
  simp only [objGet]
  rw [List.find?_cons_of_neg]
  simp [h]

theorem objGet_objSet_self {β : Type} (m : List (Pid × β)) (k : Pid) (v : β) :
    objGet (objSet m k v) k = some v := by
  induction m with
  | nil => simp [objSet, objGet_cons_self]
  | cons e rest ih =>
    by_cases h : e.1 = k
    · rw [objSet, if_pos h, objGet_cons_self]
    · rw [objSet, if_neg h, objGet_cons_ne h, ih]

theorem objGet_objSet_ne {β : Type} (m : List (Pid × β)) (k : Pid) (v : β)
    {k' : Pid} (h : k' ≠ k) : objGet (objSet m k v) k' = objGet m k' := by
  induction m with
  | nil =>
    rw [objSet, objGet_cons_ne (show (k, v).1 ≠ k' from fun hh => h hh.symm)]
  | cons e rest ih =>
    rcases e with ⟨a, b⟩
    by_cases he : a = k
    · rw [objSet, if_pos (show (a, b).1 = k from he),
        objGet_cons_ne (show (k, v).1 ≠ k' from fun hh => h hh.symm),
        objGet_cons_ne (show (a, b).1 ≠ k' from fun hh => h (hh ▸ he))]
    · rw [objSet, if_neg (show ¬ (a, b).1 = k from he)]
      by_cases hk : a = k'
      · subst hk
        show objGet ((a, b) :: objSet rest k v) a = objGet ((a, b) :: rest) a
        rw [objGet_cons_self, objGet_cons_self]
      · rw [objGet_cons_ne (show (a, b).1 ≠ k' from hk),
          objGet_cons_ne (show (a, b).1 ≠ k' from hk), ih]

theorem objSet_ne_nil {β : Type} (m : List (Pid × β)) (k : Pid) (v : β) :
    objSet m k v ≠ [] := by
  cases m with
  | nil => simp [objSet]
  | cons e rest =>
    rw [objSet]
    split <;> simp

theorem objGet_isSome_iff_mem {β : Type} {m : List (Pid × β)} {k : Pid} :
    (objGet m k).isSome = true ↔ k ∈ m.map Prod.fst := by
  induction m with
  | nil => simp [objGet]
  | cons e rest ih =>
    rcases e with ⟨a, b⟩
    by_cases ha : a = k
    · subst ha
      rw [objGet_cons_self]
      simp
    · rw [objGet_cons_ne (show (a, b).1 ≠ k from ha)]
      simp only [List.map_cons, List.mem_cons]
      rw [ih]
      constructor
      · exact Or.inr
      · intro hh
        rcases hh with hh | hh
        · exact absurd hh.symm ha
        · exact hh

theorem objSet_keys_found {β : Type} {m : List (Pid × β)} {k : Pid}
    (h : (objGet m k).isSome = true) (v : β) :
    (objSet m k v).map Prod.fst = m.map Prod.fst := by
  induction m with
  | nil => simp [objGet] at h
  | cons e rest ih =>
    rcases e with ⟨a, b⟩
    by_cases ha : a = k
    · subst ha
      rw [objSet, if_pos rfl]
      simp
    · rw [objGet_cons_ne (show (a, b).1 ≠ k from ha)] at h
      rw [objSet, if_neg (show ¬ (a, b).1 = k from ha)]
      simp only [List.map_cons]
      rw [ih h]

theorem objSet_keys_missing {β : Type} {m : List (Pid × β)} {k : Pid}
    (h : objGet m k = none) (v : β) :
    (objSet m k v).map Prod.fst = m.map Prod.fst ++ [k] := by
  induction m with
  | nil => simp [objSet]
  | cons e rest ih =>
    rcases e with ⟨a, b⟩
    by_cases ha : a = k
    · subst ha
      rw [objGet_cons_self] at h
      cases h
    · rw [objGet_cons_ne (show (a, b).1 ≠ k from ha)] at h
      rw [objSet, if_neg (show ¬ (a, b).1 = k from ha)]
      simp only [List.map_cons, List.cons_append]
      rw [ih h]

theorem objSet_length_found {β : Type} {m : List (Pid × β)} {k : Pid}
    (h : (objGet m k).isSome = true) (v : β) :
    (objSet m k v).length = m.length := by
  have h1 := objSet_keys_found h v
  have h2 := congrArg List.length h1
  simpa using h2

theorem objSet_length_missing {β : Type} {m : List (Pid × β)} {k : Pid}
    (h : objGet m k = none) (v : β) :
    (objSet m k v).length = m.length + 1 := by
  have h1 := objSet_keys_missing h v
  have h2 := congrArg List.length h1
  simpa using h2

theorem objSet_keys_nodup {β : Type} {m : List (Pid × β)} {k : Pid} (v : β)
    (h : (m.map Prod.fst).Nodup) : ((objSet m k v).map Prod.fst).Nodup := by
  by_cases hk : (objGet m k).isSome = true
  · rw [objSet_keys_found hk v]; exact h
  · rw [objSet_keys_missing (by cases hg : objGet m k with
      | none => rfl
      | some x => rw [hg] at hk; simp at hk) v]
    rw [List.nodup_append]
    refine ⟨h, List.nodup_singleton k, ?_⟩
    intro x hx
    simp only [List.mem_singleton]
    intro hxk
    subst hxk
    rw [← objGet_isSome_iff_mem] at hx
    exact hk hx

/-! ### Match-map lookup lemmas -/

theorem matchRow_fold_skip (subs : List (Pid × Submission)) (t : Pid) :
    ∀ (l : List Pid) (acc : List (Pid × Bool)) (k : Pid), (k ∉ l ∨ k = t) →
    objGet (l.foldl (fun row pr =>
      if pr = t then row
      else objSet row pr (computeMatchRelaxed (selfOf subs t) (predictionOf subs pr t))) acc) k
      = objGet acc k := by
  intro l
  induction l with
  | nil => intro acc k _; rfl
  | cons pr rest ih =>
    intro acc k hk
    rw [List.foldl_cons]
    by_cases hpt : pr = t
    · rw [if_pos hpt]
      apply ih
      rcases hk with hk | hk
      · exact Or.inl (fun hh => hk (List.mem_cons_of_mem _ hh))
      · exact Or.inr hk
    · rw [if_neg hpt]
      have hkpr : k ≠ pr := by
        rcases hk with hk | hk
        · exact fun hh => hk (hh ▸ List.mem_cons_self _ _)
        · exact fun hh => hpt (hh ▸ hk)
      have hrest : k ∉ rest ∨ k = t := by
        rcases hk with hk | hk
        · exact Or.inl (fun hh => hk (List.mem_cons_of_mem _ hh))
        · exact Or.inr hk
      rw [ih _ k hrest, objGet_objSet_ne _ _ _ hkpr]

theorem matchRow_fold_lookup (subs : List (Pid × Submission)) (t : Pid) :
    ∀ (l : List Pid) (acc : List (Pid × Bool)) (k : Pid),
    l.Nodup → k ∈ l → k ≠ t →
    objGet (l.foldl (fun row pr =>
      if pr = t then row
      else objSet row pr (computeMatchRelaxed (selfOf subs t) (predictionOf subs pr t))) acc) k
      = some (computeMatchRelaxed (selfOf subs t) (predictionOf subs k t)) := by
  intro l
  induction l with
  | nil => intro acc k _ hk; simp at hk
  | cons pr rest ih =>
    intro acc k hnd hk hkt
    rw [List.nodup_cons] at hnd
    rw [List.foldl_cons]
    by_cases hkpr : k = pr
    · subst hkpr
      rw [if_neg hkt, matchRow_fold_skip subs t rest _ k (Or.inl hnd.1),
        objGet_objSet_self]
    · rcases List.mem_cons.mp hk with hk' | hk'
      · exact absurd hk'.symm (fun hh => hkpr hh.symm)
      · by_cases hpt : pr = t
        · rw [if_pos hpt]
          exact ih _ k hnd.2 hk' hkt
        · rw [if_neg hpt]
          exact ih _ k hnd.2 hk' hkt

theorem matchRow_lookup {subs : List (Pid × Submission)} {order : List Pid} {t k : Pid}
    (hnd : order.Nodup) (hk : k ∈ order) (hkt : k ≠ t) :
    objGet (matchRow subs order t) k =
      some (computeMatchRelaxed (selfOf subs t) (predictionOf subs k t)) :=
  matchRow_fold_lookup subs t order [] k hnd hk hkt

theorem matchRow_lookup_none {subs : List (Pid × Submission)} {order : List Pid} {t k : Pid}
    (hk : k ∉ order ∨ k = t) : objGet (matchRow subs order t) k = none := by
  rw [matchRow, matchRow_fold_skip subs t order [] k hk, objGet_nil]

theorem buildMatchMap_fold_skip (subs : List (Pid × Submission)) (order : List Pid) :
    ∀ (l : List Pid) (acc : List (Pid × List (Pid × Bool))) (k : Pid), k ∉ l →
    objGet (l.foldl (fun mm t => objSet mm t (matchRow subs order t)) acc) k = objGet acc k := by
  intro l
  induction l with
  | nil => intro acc k _; rfl
  | cons t rest ih =>
    intro acc k hk
    have hkt : k ≠ t := fun hh => hk (hh ▸ List.mem_cons_self t rest)
    rw [List.foldl_cons, ih _ k (fun hh => hk (List.mem_cons_of_mem _ hh)),
      objGet_objSet_ne _ _ _ hkt]

theorem buildMatchMap_fold_lookup (subs : List (Pid × Submission)) (order : List Pid) :
    ∀ (l : List Pid) (acc : List (Pid × List (Pid × Bool))) (k : Pid),
    l.Nodup → k ∈ l →
    objGet (l.foldl (fun mm t => objSet mm t (matchRow subs order t)) acc) k =
      some (matchRow subs order k) := by
  intro l
  induction l with
  | nil => intro acc k _ hk; simp at hk
  | cons t rest ih =>
    intro acc k hnd hk
    rw [List.nodup_cons] at hnd
    rw [List.foldl_cons]
    by_cases hkt : k = t
    · subst hkt
      rw [buildMatchMap_fold_skip subs order rest _ k hnd.1, objGet_objSet_self]
    · rcases List.mem_cons.mp hk with hk' | hk'
      · exact absurd hk' hkt
      · exact ih _ k hnd.2 hk'

theorem buildMatchMap_lookup {subs : List (Pid × Submission)} {order : List Pid} {t : Pid}
    (hnd : order.Nodup) (ht : t ∈ order) :
    objGet (buildMatchMap subs order) t = some (matchRow subs order t) :=
  buildMatchMap_fold_lookup subs order order [] t hnd ht

theorem buildMatchMap_lookup_none {subs : List (Pid × Submission)} {order : List Pid} {t : Pid}
    (ht : t ∉ order) : objGet (buildMatchMap subs order) t = none := by
  rw [buildMatchMap, buildMatchMap_fold_skip subs order order [] t ht, objGet_nil]

theorem matchOf_buildMatchMap {subs : List (Pid × Submission)} {order : List Pid} {t p : Pid}
    (hnd : order.Nodup) (ht : t ∈ order) (hp : p ∈ order) (hpt : p ≠ t) :
    matchOf (buildMatchMap subs order) t p =
      computeMatchRelaxed (selfOf subs t) (predictionOf subs p t) := by
  rw [matchOf, buildMatchMap_lookup hnd ht]
  show (objGet (matchRow subs order t) p).getD false = _
  rw [matchRow_lookup hnd hp hpt]
  rfl

theorem buildMatchMap_rows (subs : List (Pid × Submission)) (order : List Pid) :
    ∀ (l : List Pid) (acc : List (Pid × List (Pid × Bool))) (t : Pid)
      (row : List (Pid × Bool)),
    objGet (l.foldl (fun mm t => objSet mm t (matchRow subs order t)) acc) t = some row →
    objGet acc t = some row ∨ row = matchRow subs order t := by
  intro l
  induction l with
  | nil => intro acc t row h; exact Or.inl h
  | cons t0 rest ih =>
    intro acc t row h
    rw [List.foldl_cons] at h
    rcases ih _ t row h with h' | h'
    · by_cases htt : t = t0
      · subst htt
        rw [objGet_objSet_self] at h'
        right
        exact (Option.some_inj.mp h').symm
      · rw [objGet_objSet_ne _ _ _ htt] at h'
        exact Or.inl h'
    · exact Or.inr h'

/-! ### Scoring-loop lemmas -/

theorem bumpScore_lookup_self (players : List (Pid × Player)) (pr : Pid) :
    objGet (bumpScore players pr) pr =
      (objGet players pr).map (fun p => { p with score := p.score + 1 }) := by
  rw [bumpScore]
  cases h : objGet players pr with
  | none => rw [h]; rfl
  | some p => rw [objGet_objSet_self]; rfl

theorem bumpScore_lookup_ne (players : List (Pid × Player)) (pr : Pid) {k : Pid}
    (h : k ≠ pr) : objGet (bumpScore players pr) k = objGet players k := by
  rw [bumpScore]
  cases hp : objGet players pr with
  | none => rfl
  | some p => rw [objGet_objSet_ne _ _ _ h]

/-- Whether the scoring loop would award `k` a fresh point for target
`t`: not a self-pair, key not scored yet, positive verdict. -/
def freshMatch (r q : Nat) (mm : List (Pid × List (Pid × Bool)))
    (sc : List ScoreKey) (k t : Pid) : Bool :=
  decide (k ≠ t) && decide ((⟨r, q, k, t⟩ : ScoreKey) ∉ sc) && matchOf mm t k

theorem scoreTarget_scored_mem (r q : Nat) (mm : List (Pid × List (Pid × Bool))) (t : Pid) :
    ∀ (prs : List Pid) (ps : List (Pid × Player)) (sc : List ScoreKey) (k0 : ScoreKey),
    (k0 ∈ (prs.foldl (scoreStep r q mm t) (ps, sc)).2 ↔
      k0 ∈ sc ∨ ∃ pr ∈ prs, pr ≠ t ∧ k0 = ⟨r, q, pr, t⟩) := by
  intro prs
  induction prs with
  | nil => intro ps sc k0; simp
  | cons pr rest ih =>
    intro ps sc k0
    rw [List.foldl_cons]
    by_cases hpt : pr = t
    · rw [scoreStep, if_pos hpt, ih]
      constructor
      · intro hh
        rcases hh with hh | ⟨pr', h1, h2, h3⟩
        · exact Or.inl hh
        · exact Or.inr ⟨pr', List.mem_cons_of_mem _ h1, h2, h3⟩
      · intro hh
        rcases hh with hh | ⟨pr', h1, h2, h3⟩
        · exact Or.inl hh
        · rcases List.mem_cons.mp h1 with h1' | h1'
          · exact absurd (h1' ▸ hpt) h2
          · exact Or.inr ⟨pr', h1', h2, h3⟩
    · by_cases hks : (⟨r, q, pr, t⟩ : ScoreKey) ∈ sc
      · rw [scoreStep, if_neg hpt, if_pos hks, ih]
        constructor
        · intro hh
          rcases hh with hh | ⟨pr', h1, h2, h3⟩
          · exact Or.inl hh
          · exact Or.inr ⟨pr', List.mem_cons_of_mem _ h1, h2, h3⟩
        · intro hh
          rcases hh with hh | ⟨pr', h1, h2, h3⟩
          · exact Or.inl hh
          · rcases List.mem_cons.mp h1 with h1' | h1'
            · exact Or.inl (h3 ▸ h1' ▸ hks)
            · exact Or.inr ⟨pr', h1', h2, h3⟩
      · rw [scoreStep, if_neg hpt, if_neg hks]
        show k0 ∈ (rest.foldl (scoreStep r q mm t)
          (_, (⟨r, q, pr, t⟩ : ScoreKey) :: sc)).2 ↔ _
        rw [ih]
        constructor
        · intro hh
          rcases hh with hh | ⟨pr', h1, h2, h3⟩
          · rcases List.mem_cons.mp hh with hh' | hh'
            · exact Or.inr ⟨pr, List.mem_cons_self _ _, hpt, hh'⟩
            · exact Or.inl hh'
          · exact Or.inr ⟨pr', List.mem_cons_of_mem _ h1, h2, h3⟩
        · intro hh
          rcases hh with hh | ⟨pr', h1, h2, h3⟩
          · exact Or.inl (List.mem_cons_of_mem _ hh)
          · rcases List.mem_cons.mp h1 with h1' | h1'
            · exact Or.inl (h3 ▸ h1' ▸ List.mem_cons_self _ _)
            · exact Or.inr ⟨pr', h1', h2, h3⟩

theorem scoreTarget_players_skip (r q : Nat) (mm : List (Pid × List (Pid × Bool))) (t : Pid) :
    ∀ (prs : List Pid) (ps : List (Pid × Player)) (sc : List ScoreKey) (k : Pid),
    k ∉ prs →
    objGet (prs.foldl (scoreStep r q mm t) (ps, sc)).1 k = objGet ps k := by
  intro prs
  induction prs with
  | nil => intro ps sc k _; rfl
  | cons pr rest ih =>
    intro ps sc k hk
    have hkpr : k ≠ pr := fun hh => hk (hh ▸ List.mem_cons_self _ _)
    have hkrest : k ∉ rest := fun hh => hk (List.mem_cons_of_mem _ hh)
    rw [List.foldl_cons]
    by_cases hpt : pr = t
    · rw [scoreStep, if_pos hpt, ih _ _ _ hkrest]
    · by_cases hks : (⟨r, q, pr, t⟩ : ScoreKey) ∈ sc
      · rw [scoreStep, if_neg hpt, if_pos hks, ih _ _ _ hkrest]
      · rw [scoreStep, if_neg hpt, if_neg hks]
        show objGet (rest.foldl (scoreStep r q mm t) _).1 k = objGet ps k
        rw [ih _ _ _ hkrest]
        by_cases hm : matchOf mm t pr = true
        · show objGet (if matchOf mm t pr then bumpScore ps pr else ps) k = objGet ps k
          rw [if_pos hm, bumpScore_lookup_ne _ _ hkpr]
        · show objGet (if matchOf mm t pr then bumpScore ps pr else ps) k = objGet ps k
          rw [if_neg hm]

theorem scoreTarget_players_hit (r q : Nat) (mm : List (Pid × List (Pid × Bool))) (t : Pid) :
    ∀ (prs : List Pid) (ps : List (Pid × Player)) (sc : List ScoreKey) (k : Pid),
    prs.Nodup → k ∈ prs →
    objGet (prs.foldl (scoreStep r q mm t) (ps, sc)).1 k =
      (if freshMatch r q mm sc k t
       then (objGet ps k).map (fun p => { p with score := p.score + 1 })
       else objGet ps k) := by
  intro prs
  induction prs with
  | nil => intro ps sc k _ hk; simp at hk
  | cons pr rest ih =>
    intro ps sc k hnd hk
    rw [List.nodup_cons] at hnd
    rw [List.foldl_cons]
    by_cases hkpr : k = pr
    · subst hkpr
      by_cases hpt : k = t
      · rw [scoreStep, if_pos hpt, scoreTarget_players_skip r q mm t rest _ _ k hnd.1,
          if_neg (by simp [freshMatch, hpt])]
      · by_cases hks : (⟨r, q, k, t⟩ : ScoreKey) ∈ sc
        · rw [scoreStep, if_neg hpt, if_pos hks,
            scoreTarget_players_skip r q mm t rest _ _ k hnd.1,
            if_neg (by simp [freshMatch]; intro _ hh; exact absurd hks hh)]
        · rw [scoreStep, if_neg hpt, if_neg hks]
          show objGet (rest.foldl (scoreStep r q mm t)
            ((if matchOf mm t k then bumpScore ps k else ps),
              (⟨r, q, k, t⟩ : ScoreKey) :: sc)).1 k = _
          rw [scoreTarget_players_skip r q mm t rest _ _ k hnd.1]
          by_cases hm : matchOf mm t k = true
          · rw [if_pos hm, if_pos (by simp [freshMatch, hpt, hks, hm]),
              bumpScore_lookup_self]
          · rw [if_neg hm, if_neg (by simp [freshMatch, hm])]
    · rcases List.mem_cons.mp hk with hk' | hk'
      · exact absurd hk' hkpr
      · by_cases hpt : pr = t
        · rw [scoreStep, if_pos hpt, ih _ _ _ hnd.2 hk']
        · by_cases hks : (⟨r, q, pr, t⟩ : ScoreKey) ∈ sc
          · rw [scoreStep, if_neg hpt, if_pos hks, ih _ _ _ hnd.2 hk']
          · rw [scoreStep, if_neg hpt, if_neg hks]
            show objGet (rest.foldl (scoreStep r q mm t)
              ((if matchOf mm t pr then bumpScore ps pr else ps),
                (⟨r, q, pr, t⟩ : ScoreKey) :: sc)).1 k = _
            rw [ih _ _ _ hnd.2 hk']
            have hObj : objGet (if matchOf mm t pr then bumpScore ps pr else ps) k
                = objGet ps k := by
              by_cases hm : matchOf mm t pr = true
              · rw [if_pos hm, bumpScore_lookup_ne _ _ hkpr]
              · rw [if_neg hm]
            have hCond : freshMatch r q mm ((⟨r, q, pr, t⟩ : ScoreKey) :: sc) k t
                = freshMatch r q mm sc k t := by
              have hkey : (⟨r, q, k, t⟩ : ScoreKey) ≠ (⟨r, q, pr, t⟩ : ScoreKey) := by
                intro hh
                exact hkpr (congrArg ScoreKey.predictor hh)
              simp [freshMatch, List.mem_cons, hkey]
            rw [hObj, hCond]

theorem applyScoring_scored_mem (r q : Nat) (mm : List (Pid × List (Pid × Bool)))
    (order : List Pid) :
    ∀ (ts : List Pid) (acc : List (Pid × Player) × List ScoreKey) (k0 : ScoreKey),
    (k0 ∈ (ts.foldl (fun a t => scoreTarget r q mm t order a) acc).2 ↔
      k0 ∈ acc.2 ∨ ∃ t ∈ ts, ∃ pr ∈ order, pr ≠ t ∧ k0 = ⟨r, q, pr, t⟩) := by
  intro ts
  induction ts with
  | nil => intro acc k0; simp
  | cons t0 rest ih =>
    intro acc k0
    obtain ⟨ps, sc⟩ := acc
    rw [List.foldl_cons]
    rcases hst : scoreTarget r q mm t0 order (ps, sc) with ⟨ps1, sc1⟩
    rw [ih (ps1, sc1) k0]
    have hinner := scoreTarget_scored_mem r q mm t0 order ps sc k0
    rw [show (order.foldl (scoreStep r q mm t0) (ps, sc)) = (ps1, sc1) from hst] at hinner
    show k0 ∈ sc1 ∨ _ ↔ _
    rw [hinner]
    constructor
    · intro hh
      rcases hh with (hh | ⟨pr, h1, h2, h3⟩) | ⟨t, ht, pr, h1, h2, h3⟩
      · exact Or.inl hh
      · exact Or.inr ⟨t0, List.mem_cons_self _ _, pr, h1, h2, h3⟩
      · exact Or.inr ⟨t, List.mem_cons_of_mem _ ht, pr, h1, h2, h3⟩
    · intro hh
      rcases hh with hh | ⟨t, ht, pr, h1, h2, h3⟩
      · exact Or.inl (Or.inl hh)
      · rcases List.mem_cons.mp ht with ht' | ht'
        · exact Or.inl (Or.inr ⟨pr, h1, ht' ▸ h2, ht' ▸ h3⟩)
        · exact Or.inr ⟨t, ht', pr, h1, h2, h3⟩

theorem applyScoring_players_skip (r q : Nat) (mm : List (Pid × List (Pid × Bool)))
    (order : List Pid) :
    ∀ (ts : List Pid) (acc : List (Pid × Player) × List ScoreKey) (k : Pid),
    k ∉ order →
    objGet (ts.foldl (fun a t => scoreTarget r q mm t order a) acc).1 k = objGet acc.1 k := by
  intro ts
  induction ts with
  | nil => intro acc k _; rfl
  | cons t0 rest ih =>
    intro acc k hk
    obtain ⟨ps, sc⟩ := acc
    rw [List.foldl_cons]
    rcases hst : scoreTarget r q mm t0 order (ps, sc) with ⟨ps1, sc1⟩
    rw [ih (ps1, sc1) k hk]
    show objGet ps1 k = objGet ps k
    have hinner := scoreTarget_players_skip r q mm t0 order ps sc k hk
    rw [show (order.foldl (scoreStep r q mm t0) (ps, sc)) = (ps1, sc1) from hst] at hinner
    exact hinner

theorem applyScoring_players_hit (r q : Nat) (mm : List (Pid × List (Pid × Bool)))
    (order : List Pid) :
    ∀ (ts : List Pid) (ps : List (Pid × Player)) (sc : List ScoreKey) (k : Pid) (p0 : Player),
    ts.Nodup → order.Nodup → k ∈ order → objGet ps k = some p0 →
    objGet (ts.foldl (fun a t => scoreTarget r q mm t order a) (ps, sc)).1 k =
      some { p0 with score := p0.score + (ts.filter (freshMatch r q mm sc k)).length } := by
  intro ts
  induction ts with
  | nil =>
    intro ps sc k p0 _ _ _ hget
    rw [List.filter_nil]
    simpa using hget
  | cons t0 rest ih =>
    intro ps sc k p0 hndts hndor hmem hget
    rw [List.nodup_cons] at hndts
    rw [List.foldl_cons]
    rcases hst : scoreTarget r q mm t0 order (ps, sc) with ⟨ps1, sc1⟩
    have hinner := scoreTarget_players_hit r q mm t0 order ps sc k hndor hmem
    rw [show (order.foldl (scoreStep r q mm t0) (ps, sc)) = (ps1, sc1) from hst] at hinner
    have hscmem := scoreTarget_scored_mem r q mm t0 order ps sc
    have hfcong : ∀ t ∈ rest, freshMatch r q mm sc1 k t = freshMatch r q mm sc k t := by
      intro t ht
      have htt0 : t ≠ t0 := fun hh => hndts.1 (hh ▸ ht)
      have hkey : ((⟨r, q, k, t⟩ : ScoreKey) ∈ sc1) ↔ ((⟨r, q, k, t⟩ : ScoreKey) ∈ sc) := by
        have h1 := hscmem ⟨r, q, k, t⟩
        rw [show (order.foldl (scoreStep r q mm t0) (ps, sc)) = (ps1, sc1) from hst] at h1
        show _ ↔ _
        rw [show ((⟨r, q, k, t⟩ : ScoreKey) ∈ (ps1, sc1).2) =
          ((⟨r, q, k, t⟩ : ScoreKey) ∈ sc1) from rfl] at h1
        rw [h1]
        constructor
        · intro hh
          rcases hh with hh | ⟨pr, _, _, h3⟩
          · exact hh
          · exact absurd (congrArg ScoreKey.target h3) htt0
        · exact Or.inl
      simp only [freshMatch, hkey]
    have hcnt : (rest.filter (freshMatch r q mm sc1 k)).length =
        (rest.filter (freshMatch r q mm sc k)).length := by
      rw [List.filter_congr hfcong]
    by_cases hf : freshMatch r q mm sc k t0 = true
    · have hp1 : objGet ps1 k = some { p0 with score := p0.score + 1 } := by
        rw [hinner, if_pos hf, hget]
        rfl
      have hIH := ih ps1 sc1 k { p0 with score := p0.score + 1 } hndts.2 hndor hmem hp1
      rw [hIH, hcnt, List.filter_cons, if_pos hf]
      show some ({ p0 with score := p0.score + 1 +
          (rest.filter (freshMatch r q mm sc k)).length } : Player) =
        some { p0 with score := p0.score +
          (t0 :: rest.filter (freshMatch r q mm sc k)).length }
      simp only [List.length_cons]
      congr 1
      simp only [Player.mk.injEq, true_and, and_true]
      omega
    · have hp1 : objGet ps1 k = some p0 := by
        rw [hinner, if_neg hf, hget]
      have hIH := ih ps1 sc1 k p0 hndts.2 hndor hmem hp1
      rw [hIH, hcnt, List.filter_cons, if_neg hf]

/-! ### `submitAnswers` characterization -/

theorem submitAnswers_incomplete {room : Room} {playerId : Pid} {sock self : String}
    {predicts : List (Pid × String)} {p : Player}
    (hstate : room.game.state = .ANSWERING)
    (hp : objGet room.players playerId = some p) (hsock : p.socketId = sock)
    (hlen : (objSet room.game.submissions playerId
        ⟨sanitize80 self, cleanPredictsFn room.players predicts⟩).length ≠
      room.players.length) :
    submitAnswers room playerId sock self predicts =
      { room with game := { room.game with
          submissions := objSet room.game.submissions playerId
            ⟨sanitize80 self, cleanPredictsFn room.players predicts⟩ } } := by
  simp only [submitAnswers, hstate, hp, hsock, ne_eq, not_true_eq_false, if_false,
    ite_false, eq_self_iff_true, not_false_iff, ite_true]
  rw [if_neg hlen]

theorem submitAnswers_complete {room : Room} {playerId : Pid} {sock self : String}
    {predicts : List (Pid × String)} {p : Player}
    (hstate : room.game.state = .ANSWERING)
    (hp : objGet room.players playerId = some p) (hsock : p.socketId = sock)
    (hlen : (objSet room.game.submissions playerId
        ⟨sanitize80 self, cleanPredictsFn room.players predicts⟩).length =
      room.players.length) :
    submitAnswers room playerId sock self predicts =
      { room with
        players := (applyScoring room.game.round room.game.question
          (buildMatchMap (objSet room.game.submissions playerId
            ⟨sanitize80 self, cleanPredictsFn room.players predicts⟩) room.game.revealOrder)
          room.game.revealOrder room.players room.game.scoredPairs).1
        game := { room.game with
          submissions := objSet room.game.submissions playerId
            ⟨sanitize80 self, cleanPredictsFn room.players predicts⟩
          matchMap := buildMatchMap (objSet room.game.submissions playerId
            ⟨sanitize80 self, cleanPredictsFn room.players predicts⟩) room.game.revealOrder
          scoredPairs := (applyScoring room.game.round room.game.question
            (buildMatchMap (objSet room.game.submissions playerId
              ⟨sanitize80 self, cleanPredictsFn room.players predicts⟩) room.game.revealOrder)
            room.game.revealOrder room.players room.game.scoredPairs).2
          state := .REVEAL
          revealIndex := 0 } } := by
  simp only [submitAnswers, hstate, hp, hsock, ne_eq, not_true_eq_false, if_false,
    ite_false, eq_self_iff_true, not_false_iff, ite_true]
  rw [if_pos hlen]

/-- C1: a valid submission that makes the stored-submission count equal
the current player count makes `submitAnswers`, in one step: (a) store
in the match map, for every ordered pair (predictor, target) from the
reveal order with predictor ≠ target, the `computeMatchRelaxed` verdict
of the predictor's stored guess for the target against the target's
stored self-answer; (b) record every such pair's
(round, question, predictor, target) key and give each predictor from
the reveal order one point per target whose key was not yet scored and
whose verdict is a match (players outside the reveal order keep their
entry unchanged); (c) set the phase to REVEAL with reveal cursor 0.
A submission that leaves the count below the player count changes only
the submissions map — the phase stays ANSWERING, so reaching full count
is the only trigger of the ANSWERING→REVEAL transition. -/
theorem c1_submit_completion (room : Room) (playerId : Pid) (sock self : String)
    (predicts : List (Pid × String)) (p : Player)
    (hstate : room.game.state = .ANSWERING)
    (hp : objGet room.players playerId = some p)
    (hsock : p.socketId = sock)
    (hnd : room.game.revealOrder.Nodup) :
    (let subs' := objSet room.game.submissions playerId
        ⟨sanitize80 self, cleanPredictsFn room.players predicts⟩
     let mm := buildMatchMap subs' room.game.revealOrder
     let room' := submitAnswers room playerId sock self predicts
     (subs'.length = room.players.length →
        room'.game.state = .REVEAL ∧
        room'.game.revealIndex = 0 ∧
        (∀ t ∈ room.game.revealOrder, ∀ pr ∈ room.game.revealOrder, pr ≠ t →
          matchOf room'.game.matchMap t pr =
            computeMatchRelaxed (selfOf subs' t) (predictionOf subs' pr t)) ∧
        (∀ t ∈ room.game.revealOrder, ∀ pr ∈ room.game.revealOrder, pr ≠ t →
          (⟨room.game.round, room.game.question, pr, t⟩ : ScoreKey) ∈
            room'.game.scoredPairs) ∧
        (∀ pr ∈ room.game.revealOrder, ∀ p0 : Player,
          objGet room.players pr = some p0 →
          objGet room'.players pr = some { p0 with score := p0.score +
            (room.game.revealOrder.filter
              (freshMatch room.game.round room.game.question mm
                room.game.scoredPairs pr)).length }) ∧
        (∀ k : Pid, k ∉ room.game.revealOrder →
          objGet room'.players k = objGet room.players k)) ∧
     (subs'.length ≠ room.players.length →
        room' = { room with game :=
          { room.game with submissions := subs' } })) := by
  constructor
  · intro hlen
    rw [submitAnswers_complete hstate hp hsock hlen]
    refine ⟨rfl, rfl, ?_, ?_, ?_, ?_⟩
    · intro t ht pr hpr hne
      exact matchOf_buildMatchMap hnd ht hpr hne
    · intro t ht pr hpr hne
      show (⟨room.game.round, room.game.question, pr, t⟩ : ScoreKey) ∈
        (room.game.revealOrder.foldl
          (fun a t0 => scoreTarget room.game.round room.game.question
            (buildMatchMap (objSet room.game.submissions playerId
              ⟨sanitize80 self, cleanPredictsFn room.players predicts⟩)
              room.game.revealOrder) t0 room.game.revealOrder a)
          (room.players, room.game.scoredPairs)).2
      rw [applyScoring_scored_mem]
      exact Or.inr ⟨t, ht, pr, hpr, hne, rfl⟩
    · intro pr hpr p0 hp0
      exact applyScoring_players_hit room.game.round room.game.question _
        room.game.revealOrder room.game.revealOrder room.players
        room.game.scoredPairs pr p0 hnd hnd hpr hp0
    · intro k hk
      exact applyScoring_players_skip room.game.round room.game.question _
        room.game.revealOrder room.game.revealOrder
        (room.players, room.game.scoredPairs) k hk
  · intro hlen
    exact submitAnswers_incomplete hstate hp hsock hlen

/-- A concrete two-player room in ANSWERING with one submission stored,
reached from creation by join/ready/start/submit events. -/
def roomW1 : Room :=
  step (.submit "p1" "s1" "blauw" [("p2", "rood")])
    (step (.startGame (fun l => l))
      (step (.ready "p2" "s2" true)
        (step (.ready "p1" "s1" true)
          (step (.join "p2" "s2" "Bob")
            (step (.join "p1" "s1" "Alice") (createRoom "AAAAAA" "default"))))))

set_option maxRecDepth 40000 in
/-- Witness for C1 at a concrete input: the second player's submission
reaches full count and flips the room to REVEAL at cursor 0. -/
theorem c1_submit_completion_witness :
    (objSet roomW1.game.submissions "p2"
        ⟨sanitize80 "rood", cleanPredictsFn roomW1.players [("p1", "blauw")]⟩).length =
      roomW1.players.length ∧
    (submitAnswers roomW1 "p2" "s2" "rood" [("p1", "blauw")]).game.state = Phase.REVEAL ∧
    (submitAnswers roomW1 "p2" "s2" "rood" [("p1", "blauw")]).game.revealIndex = 0 := by
  have h := (c1_submit_completion roomW1 "p2" "s2" "rood" [("p1", "blauw")]
    (⟨"p2", "Bob", true, true, 0, "s2"⟩ : Player)
    (by decide) (by decide) rfl (by decide)).1 (by decide)
  exact ⟨by decide, h.1, h.2.1⟩

/-! ### Submission sanitization (C7) -/

theorem objGet_eq_none_of_not_mem {β : Type} {m : List (Pid × β)} {k : Pid}
    (h : k ∉ m.map Prod.fst) : objGet m k = none := by
  cases hg : objGet m k with
  | none => rfl
  | some v =>
    exact absurd (objGet_isSome_iff_mem.mp (by rw [hg]; rfl)) h

theorem cleanPredicts_fold_lookup (players : List (Pid × Player)) :
    ∀ (preds : List (Pid × String)) (acc : List (Pid × String)) (tid : Pid),
    (preds.map Prod.fst).Nodup →
    objGet (preds.foldl (fun acc e =>
        if (objGet players e.1).isSome then objSet acc e.1 (sanitize80 e.2) else acc) acc) tid =
      (match objGet preds tid with
       | some v => if (objGet players tid).isSome then some (sanitize80 v) else objGet acc tid
       | none => objGet acc tid) := by
  intro preds
  induction preds with
  | nil => intro acc tid _; rfl
  | cons e rest ih =>
    intro acc tid hnd
    rcases e with ⟨k, v⟩
    simp only [List.map_cons, List.nodup_cons] at hnd
    rw [List.foldl_cons]
    by_cases htid : tid = k
    · subst htid
      have hrest : objGet rest tid = none :=
        objGet_eq_none_of_not_mem hnd.1
      rw [ih _ tid hnd.2, hrest, objGet_cons_self]
      show objGet (if (objGet players tid).isSome = true
          then objSet acc tid (sanitize80 v) else acc) tid =
        if (objGet players tid).isSome = true then some (sanitize80 v) else objGet acc tid
      by_cases hknown : (objGet players tid).isSome = true
      · rw [if_pos hknown, if_pos hknown, objGet_objSet_self]
      · rw [if_neg hknown, if_neg hknown]
    · rw [ih _ tid hnd.2, objGet_cons_ne (show (k, v).1 ≠ tid from fun hh => htid hh.symm)]
      have hacc : objGet (if (objGet players k).isSome = true
          then objSet acc k (sanitize80 v) else acc) tid = objGet acc tid := by
        by_cases hknown : (objGet players k).isSome = true
        · rw [if_pos hknown, objGet_objSet_ne _ _ _ htid]
        · rw [if_neg hknown]
      cases hr : objGet rest tid with
      | none =>
        exact hacc
      | some v' =>
        show (if (objGet players tid).isSome = true then some (sanitize80 v')
            else objGet (if (objGet players k).isSome = true
              then objSet acc k (sanitize80 v) else acc) tid) =
          if (objGet players tid).isSome = true then some (sanitize80 v') else objGet acc tid
        by_cases hknown : (objGet players tid).isSome = true
        · rw [if_pos hknown, if_pos hknown]
        · rw [if_neg hknown, if_neg hknown]
          exact hacc

set_option maxRecDepth 4000 in
/-- C7: an accepted submission stores exactly the sanitized data: the
self answer and every kept predicted text are the input trimmed and
truncated to 80 characters; predictions aimed at a target id that is
not a current player id are dropped and never stored; the write is an
upsert — it completely replaces the same player's earlier submission
and leaves every other player's stored submission unchanged. -/
theorem c7_submission_sanitization (room : Room) (playerId : Pid)
    (sock self : String) (predicts : List (Pid × String)) (p : Player)
    (hstate : room.game.state = .ANSWERING)
    (hp : objGet room.players playerId = some p)
    (hsock : p.socketId = sock)
    (hndpred : (predicts.map Prod.fst).Nodup) :
    objGet (submitAnswers room playerId sock self predicts).game.submissions playerId =
      some ⟨sanitize80 self, cleanPredictsFn room.players predicts⟩ ∧
    (∀ k : Pid, k ≠ playerId →
       objGet (submitAnswers room playerId sock self predicts).game.submissions k =
         objGet room.game.submissions k) ∧
    sanitize80 self = (jsTrim self).take 80 ∧
    (∀ tid : Pid, objGet room.players tid = none →
       objGet (cleanPredictsFn room.players predicts) tid = none) ∧
    (∀ tid : Pid, (objGet room.players tid).isSome = true →
       objGet (cleanPredictsFn room.players predicts) tid =
         (objGet predicts tid).map (fun v => (jsTrim v).take 80)) := by
  have hsubs : (submitAnswers room playerId sock self predicts).game.submissions =
      objSet room.game.submissions playerId
        ⟨sanitize80 self, cleanPredictsFn room.players predicts⟩ := by
    by_cases hlen : (objSet room.game.submissions playerId
        ⟨sanitize80 self, cleanPredictsFn room.players predicts⟩).length =
        room.players.length
    · rw [submitAnswers_complete hstate hp hsock hlen]
    · rw [submitAnswers_incomplete hstate hp hsock hlen]
  refine ⟨?_, ?_, rfl, ?_, ?_⟩
  · rw [hsubs, objGet_objSet_self]
  · intro k hk
    rw [hsubs, objGet_objSet_ne _ _ _ hk]
  · intro tid htid
    rw [cleanPredictsFn, cleanPredicts_fold_lookup room.players predicts [] tid hndpred]
    cases hpr : objGet predicts tid with
    | none => rfl
    | some v =>
      show (if (objGet room.players tid).isSome = true then some (sanitize80 v)
          else objGet ([] : List (Pid × String)) tid) = none
      rw [if_neg (by rw [htid]; simp)]
      rfl
  · intro tid htid
    rw [cleanPredictsFn, cleanPredicts_fold_lookup room.players predicts [] tid hndpred]
    cases hpr : objGet predicts tid with
    | none => rfl
    | some v =>
      show (if (objGet room.players tid).isSome = true then some (sanitize80 v)
          else objGet ([] : List (Pid × String)) tid) = some ((jsTrim v).take 80)
      rw [if_pos htid]
      rfl

set_option maxRecDepth 40000 in
/-- Witness for C7 at a concrete input: a re-submission by the first
player replaces the stored submission, the texts are trimmed and capped,
and a prediction for the unknown id is dropped. -/
theorem c7_submission_sanitization_witness :
    objGet (submitAnswers roomW1 "p1" "s1" "  geel  "
        [("p2", " rood "), ("zz", "x")]).game.submissions "p1" =
      some ⟨sanitize80 "  geel  ",
        cleanPredictsFn roomW1.players [("p2", " rood "), ("zz", "x")]⟩ ∧
    sanitize80 "  geel  " = "geel" ∧
    objGet (cleanPredictsFn roomW1.players [("p2", " rood "), ("zz", "x")]) "zz" = none ∧
    objGet (cleanPredictsFn roomW1.players [("p2", " rood "), ("zz", "x")]) "p2" =
      some "rood" := by
  have h := c7_submission_sanitization roomW1 "p1" "s1" "  geel  "
    [("p2", " rood "), ("zz", "x")] (⟨"p1", "Alice", true, true, 0, "s1"⟩ : Player)
    (by decide) (by decide) rfl (by decide)
  exact ⟨h.1, by decide, h.2.2.2.1 "zz" (by decide), by decide⟩

/-! ### Join handling (C8) -/

/-- C8: a join request is rejected — with a reason surfaced to the
caller and the registry left untouched — exactly when the code resolves
to no live room (room not found), the room is already at its
theme-dependent capacity (2 for dating, 6 otherwise), or the display
name is empty after trimming; otherwise it succeeds and adds exactly
one new player with `ready = false`, `connected = true`, `score = 0`. -/
theorem c8_join_rejections (rooms : List (String × Room)) (code name : String)
    (id : Pid) (sock : String) :
    (getRoom rooms code = none →
       joinRoomHandler rooms code name id sock = (rooms, some .roomNotFound)) ∧
    (∀ room : Room, getRoom rooms code = some room →
      (maxPlayersFor room.theme ≤ room.players.length →
         joinRoomHandler rooms code name id sock = (rooms, some .roomFull)) ∧
      (room.players.length < maxPlayersFor room.theme → (jsTrim name).take 24 = "" →
         joinRoomHandler rooms code name id sock = (rooms, some .emptyName)) ∧
      (room.players.length < maxPlayersFor room.theme → (jsTrim name).take 24 ≠ "" →
         joinRoomCore room name id sock = .ok { room with
           players := objSet room.players id
             ⟨id, (jsTrim name).take 24, false, true, 0, sock⟩ } ∧
         (joinRoomHandler rooms code name id sock).2 = none ∧
         (objGet room.players id = none →
           (objSet room.players id
             ⟨id, (jsTrim name).take 24, false, true, 0, sock⟩).length =
             room.players.length + 1))) ∧
    maxPlayersFor "dating" = MAX_PLAYERS_DATING ∧
    (∀ t : String, t ≠ "dating" → maxPlayersFor t = MAX_PLAYERS) := by
  refine ⟨?_, ?_, rfl, ?_⟩
  · intro hnone
    rw [joinRoomHandler, hnone]
  · intro room hroom
    have hfullCore : maxPlayersFor room.theme ≤ room.players.length →
        joinRoomCore room name id sock = .error .roomFull := by
      intro hfull
      rw [joinRoomCore, if_pos hfull]
    have hnameCore : room.players.length < maxPlayersFor room.theme →
        (jsTrim name).take 24 = "" →
        joinRoomCore room name id sock = .error .emptyName := by
      intro hlt hname
      rw [joinRoomCore, if_neg (by omega)]
      show (if (jsTrim name).take 24 = "" then
          (Except.error JoinError.emptyName : Except JoinError Room)
        else Except.ok { room with
          players :=
            objSet room.players id ⟨id, (jsTrim name).take 24, false, true, 0, sock⟩ }) = _
      rw [if_pos hname]
    have hokCore : room.players.length < maxPlayersFor room.theme →
        (jsTrim name).take 24 ≠ "" →
        joinRoomCore room name id sock = .ok { room with
          players := objSet room.players id
            ⟨id, (jsTrim name).take 24, false, true, 0, sock⟩ } := by
      intro hlt hname
      rw [joinRoomCore, if_neg (by omega)]
      show (if (jsTrim name).take 24 = "" then
          (Except.error JoinError.emptyName : Except JoinError Room)
        else Except.ok { room with
          players :=
            objSet room.players id ⟨id, (jsTrim name).take 24, false, true, 0, sock⟩ }) = _
      rw [if_neg hname]
    refine ⟨?_, ?_, ?_⟩
    · intro hfull
      rw [joinRoomHandler, hroom]
      show (match joinRoomCore room name id sock with
        | .error e => (rooms, some e)
        | .ok room' => (rooms.map (fun e : String × Room =>
            if e.1 = room'.code then (e.1, room') else e), none)) = _
      rw [hfullCore hfull]
    · intro hlt hname
      rw [joinRoomHandler, hroom]
      show (match joinRoomCore room name id sock with
        | .error e => (rooms, some e)
        | .ok room' => (rooms.map (fun e : String × Room =>
            if e.1 = room'.code then (e.1, room') else e), none)) = _
      rw [hnameCore hlt hname]
    · intro hlt hname
      refine ⟨hokCore hlt hname, ?_, ?_⟩
      · rw [joinRoomHandler, hroom]
        show (match joinRoomCore room name id sock with
          | .error e => (rooms, some e)
          | .ok room' => (rooms.map (fun e : String × Room =>
              if e.1 = room'.code then (e.1, room') else e), none)).2 = _
        rw [hokCore hlt hname]
      · intro hfresh
        exact objSet_length_missing hfresh _
  · intro t ht
    rw [maxPlayersFor, if_neg ht]

/-- A one-room registry for the join witness. -/
def roomsW8 : List (String × Room) := [("AAAAAA", createRoom "AAAAAA" "default")]

set_option maxRecDepth 4000 in
/-- Witness for C8 at a concrete input: joining the empty default room
with a lower-case code and a padded name succeeds (no error surfaced),
and the caps are 2 for dating and 6 otherwise. -/
theorem c8_join_rejections_witness :
    (joinRoomHandler roomsW8 "aaaaaa" "  Carol  " "p9" "s9").2 = none ∧
    joinRoomCore (createRoom "AAAAAA" "default") "  Carol  " "p9" "s9" =
      .ok { (createRoom "AAAAAA" "default") with
        players := objSet (createRoom "AAAAAA" "default").players "p9"
          ⟨"p9", (jsTrim "  Carol  ").take 24, false, true, 0, "s9"⟩ } ∧
    maxPlayersFor "dating" = MAX_PLAYERS_DATING ∧
    maxPlayersFor "default" = MAX_PLAYERS := by
  have h := c8_join_rejections roomsW8 "aaaaaa" "  Carol  " "p9" "s9"
  have hsome : getRoom roomsW8 "aaaaaa" = some (createRoom "AAAAAA" "default") := by decide
  have h2 := (h.2.1 (createRoom "AAAAAA" "default") hsome).2.2 (by decide) (by decide)
  exact ⟨h2.2.1, h2.1, h.2.2.1, h.2.2.2 "default" (by decide)⟩

/-! ### Start-round (C3) -/

theorem objGet_map_val {β γ : Type} (f : β → γ) (m : List (Pid × β)) (k : Pid) :
    objGet (m.map (fun e => (e.1, f e.2))) k = (objGet m k).map f := by
  induction m with
  | nil => rfl
  | cons e rest ih =>
    rcases e with ⟨a, b⟩
    by_cases ha : a = k
    · subst ha
      show objGet ((a, f b) :: rest.map (fun e => (e.1, f e.2))) a = _
      rw [objGet_cons_self, objGet_cons_self]
      rfl
    · show objGet ((a, f b) :: rest.map (fun e => (e.1, f e.2))) k = _
      rw [objGet_cons_ne (show (a, f b).1 ≠ k from ha),
        objGet_cons_ne (show (a, b).1 ≠ k from ha), ih]

theorem themeOrDefault_ne_nil (t : String) : themeOrDefault t ≠ [] := by
  have hall : ∀ e ∈ THEMES, e.2 ≠ ([] : List String) := by decide
  rw [themeOrDefault]
  cases hl : themeLookup t with
  | none =>
    show ((themeLookup "default").getD []) ≠ []
    decide
  | some l =>
    show l ≠ []
    rw [themeLookup] at hl
    cases hf : THEMES.find? (fun e => e.1 == t) with
    | none => rw [hf] at hl; cases hl
    | some e =>
      rw [hf] at hl
      have hmem : e ∈ THEMES := List.mem_of_find?_eq_some hf
      have hel : e.2 = l := by
        have : some e.2 = some l := hl
        exact Option.some_inj.mp this
      exact hel ▸ hall e hmem

theorem hostStartGame_eq (shuffle : List String → List String) (room : Room) :
    hostStartGame shuffle room =
      (if ((room.players.map (·.2)).filter (·.connected)).length < 2 then room
       else if !(((room.players.map (·.2)).filter (·.connected)).all (·.ready)) then room
       else startNewQuestion shuffle { room with
         players := room.players.map (fun e => (e.1, { e.2 with score := 0 }))
         game := { room.game with
           question := 1
           questionsPerRound := QUESTIONS_PER_ROUND
           promptPool := shuffle (themeOrDefault room.theme) } }) := rfl

set_option maxRecDepth 40000 in
/-- C3 as stated is false on the code: `hostStartGame` never checks the
phase, so with all connected players still flagged ready it fires in the
middle of a question.  `roomW1` is a reachable ANSWERING room with one
stored submission; the action changes its state (clearing that
submission and re-snapshotting the question) even though the phase is
not LOBBY. -/
theorem c3_counterexample :
    Reachable roomW1 ∧ roomW1.game.state ≠ Phase.LOBBY ∧
    hostStartGame (fun l => l) roomW1 ≠ roomW1 := by
  refine ⟨?_, by decide, by decide⟩
  unfold roomW1
  exact Reachable.step _ (Reachable.step _ (Reachable.step _ (Reachable.step _
    (Reachable.step _ (Reachable.step _ (Reachable.init "AAAAAA" "default"))))))

/-- C3 (amended): the start-round action applies in any phase — the
handler checks no phase.  Preconditions: at least 2 connected players,
all connected players ready; otherwise it is a no-op.  On success it
resets every player's score to 0, sets the question counter to 1 (and
questions-per-round to 10), reshuffles the prompt pool from the room's
theme set and pops the first prompt, clears submissions, match results
and scored pairs, snapshots the reveal order from the current player-id
ordering, resets the reveal cursor to 0, and enters ANSWERING. -/
theorem c3_start_round_amended (shuffle : List String → List String) (room : Room)
    (hperm : ∀ l : List String, (shuffle l).Perm l) :
    (((room.players.map (·.2)).filter (·.connected)).length < 2 →
       hostStartGame shuffle room = room) ∧
    (((room.players.map (·.2)).filter (·.connected)).all (·.ready) = false →
       hostStartGame shuffle room = room) ∧
    (2 ≤ ((room.players.map (·.2)).filter (·.connected)).length →
     ((room.players.map (·.2)).filter (·.connected)).all (·.ready) = true →
       (hostStartGame shuffle room).game.state = .ANSWERING ∧
       (∀ (k : Pid) (p0 : Player), objGet room.players k = some p0 →
          objGet (hostStartGame shuffle room).players k = some { p0 with score := 0 }) ∧
       (hostStartGame shuffle room).game.question = 1 ∧
       (hostStartGame shuffle room).game.questionsPerRound = QUESTIONS_PER_ROUND ∧
       (hostStartGame shuffle room).game.prompt =
         (shuffle (themeOrDefault room.theme)).head? ∧
       (hostStartGame shuffle room).game.promptPool =
         (shuffle (themeOrDefault room.theme)).tail ∧
       ((hostStartGame shuffle room).game.prompt.toList ++
         (hostStartGame shuffle room).game.promptPool).Perm
           (themeOrDefault room.theme) ∧
       (hostStartGame shuffle room).game.submissions = [] ∧
       (hostStartGame shuffle room).game.revealOrder = room.players.map (·.1) ∧
       (hostStartGame shuffle room).game.revealIndex = 0 ∧
       (hostStartGame shuffle room).game.matchMap = [] ∧
       (hostStartGame shuffle room).game.scoredPairs = []) := by
  have hne : shuffle (themeOrDefault room.theme) ≠ [] := by
    intro hnil
    have hlen := (hperm (themeOrDefault room.theme)).length_eq
    rw [hnil] at hlen
    exact themeOrDefault_ne_nil room.theme (List.length_eq_zero.mp hlen.symm)
  have hpool : (if (shuffle (themeOrDefault room.theme)).isEmpty = true
      then shuffle (themeOrDefault room.theme)
      else shuffle (themeOrDefault room.theme)) = shuffle (themeOrDefault room.theme) :=
    ite_self _
  refine ⟨?_, ?_, ?_⟩
  · intro hlt
    rw [hostStartGame_eq, if_pos hlt]
  · intro hall
    by_cases hlt : ((room.players.map (·.2)).filter (·.connected)).length < 2
    · rw [hostStartGame_eq, if_pos hlt]
    · rw [hostStartGame_eq, if_neg hlt, if_pos (by rw [hall]; rfl)]
  · intro hge hall
    rw [hostStartGame_eq, if_neg (by omega), if_neg (by rw [hall]; decide)]
    refine ⟨rfl, ?_, rfl, rfl, ?_, ?_, ?_, rfl, ?_, rfl, rfl, rfl⟩
    · intro k p0 hk
      show objGet (room.players.map (fun e => (e.1, ({ e.2 with score := 0 } : Player)))) k =
        some ({ p0 with score := 0 } : Player)
      rw [objGet_map_val (fun p => ({ p with score := 0 } : Player)) room.players k, hk]
      rfl
    · show (if (shuffle (themeOrDefault room.theme)).isEmpty = true
        then shuffle (themeOrDefault room.theme)
        else shuffle (themeOrDefault room.theme)).head? = _
      rw [hpool]
    · show (if (shuffle (themeOrDefault room.theme)).isEmpty = true
        then shuffle (themeOrDefault room.theme)
        else shuffle (themeOrDefault room.theme)).tail = _
      rw [hpool]
    · show ((if (shuffle (themeOrDefault room.theme)).isEmpty = true
          then shuffle (themeOrDefault room.theme)
          else shuffle (themeOrDefault room.theme)).head?.toList ++
        (if (shuffle (themeOrDefault room.theme)).isEmpty = true
          then shuffle (themeOrDefault room.theme)
          else shuffle (themeOrDefault room.theme)).tail).Perm
          (themeOrDefault room.theme)
      rw [hpool]
      have hsplit : (shuffle (themeOrDefault room.theme)).head?.toList ++
          (shuffle (themeOrDefault room.theme)).tail =
          shuffle (themeOrDefault room.theme) := by
        cases hS : shuffle (themeOrDefault room.theme) with
        | nil => exact absurd hS hne
        | cons a l => rfl
      rw [hsplit]
      exact hperm _
    · show (room.players.map (fun e => (e.1, ({ e.2 with score := 0 } : Player)))).map (·.1) =
        room.players.map (·.1)
      rw [List.map_map]
      rfl

/-- The reachable LOBBY room right before the start in `roomW1`'s
history: two joined, connected, ready players. -/
def roomW3 : Room :=
  step (.ready "p2" "s2" true)
    (step (.ready "p1" "s1" true)
      (step (.join "p2" "s2" "Bob")
        (step (.join "p1" "s1" "Alice") (createRoom "AAAAAA" "default"))))

set_option maxRecDepth 40000 in
/-- Witness for the amended C3 at a concrete input: starting from a
ready two-player lobby enters ANSWERING at question 1 with the reveal
order snapshotted and the cursor reset. -/
theorem c3_start_round_amended_witness :
    (hostStartGame (fun l => l) roomW3).game.state = Phase.ANSWERING ∧
    (hostStartGame (fun l => l) roomW3).game.question = 1 ∧
    (hostStartGame (fun l => l) roomW3).game.revealOrder = ["p1", "p2"] ∧
    (hostStartGame (fun l => l) roomW3).game.revealIndex = 0 := by
  have h := (c3_start_round_amended (fun l => l) roomW3
    (fun l => List.Perm.refl l)).2.2 (by decide) (by decide)
  refine ⟨h.1, h.2.2.1, ?_, h.2.2.2.2.2.2.2.2.2.1⟩
  rw [h.2.2.2.2.2.2.2.2.1]
  decide

/-! ### Advance-reveal (C6) -/

/-- A reachable room in REVEAL where a third player joined after the
reveal order was snapshotted: the order has length 2 but the room has
3 players. -/
def roomW6 : Room :=
  step .nextReveal
    (step (.submit "p3" "s3" "" [])
      (step (.submit "p2" "s2" "" [])
        (step (.submit "p1" "s1" "" [])
          (step (.join "p3" "s3" "Cena")
            (step (.startGame (fun l => l)) roomW3)))))

set_option maxRecDepth 40000 in
/-- C6 as stated is false on the code: advancing the reveal in `roomW6`
enters SCOREBOARD when the cursor reaches the reveal-order length (2),
not the player count (3) — the two differ because a player joined
mid-question. -/
theorem c6_counterexample :
    Reachable roomW6 ∧
    roomW6.game.state = Phase.REVEAL ∧
    (hostNextReveal roomW6).game.state = Phase.SCOREBOARD ∧
    (hostNextReveal roomW6).game.revealIndex = 2 ∧
    roomW6.players.length = 3 := by
  refine ⟨?_, by decide, by decide, by decide, by decide⟩
  unfold roomW6 roomW3
  exact Reachable.step _ (Reachable.step _ (Reachable.step _ (Reachable.step _
    (Reachable.step _ (Reachable.step _ (Reachable.step _ (Reachable.step _
      (Reachable.step _ (Reachable.step _ (Reachable.init "AAAAAA" "default"))))))))))

/-- C6 (amended): in REVEAL the action increments the cursor by exactly
1 and the phase becomes SCOREBOARD exactly when the incremented cursor
reaches the reveal-order length (the snapshot taken at question start,
which can differ from the current player count); below that length the
phase stays REVEAL; outside REVEAL the action is a no-op. -/
theorem c6_advance_reveal_amended (room : Room) :
    (room.game.state ≠ .REVEAL → hostNextReveal room = room) ∧
    (room.game.state = .REVEAL →
       (hostNextReveal room).game.revealIndex = room.game.revealIndex + 1 ∧
       ((hostNextReveal room).game.state = .SCOREBOARD ↔
         room.game.revealOrder.length ≤ room.game.revealIndex + 1) ∧
       (room.game.revealIndex + 1 < room.game.revealOrder.length →
         (hostNextReveal room).game.state = .REVEAL)) := by
  constructor
  · intro hne
    rw [hostNextReveal, if_pos hne]
  · intro hst
    rw [hostNextReveal, if_neg (fun hh => hh hst)]
    by_cases hle : room.game.revealOrder.length ≤ room.game.revealIndex + 1
    · rw [if_pos hle]
      refine ⟨rfl, ⟨fun _ => hle, fun _ => rfl⟩, ?_⟩
      intro hlt
      omega
    · rw [if_neg hle]
      refine ⟨rfl, ⟨fun hh => ?_, fun hh => absurd hh hle⟩, fun _ => hst⟩
      have hh' : room.game.state = Phase.SCOREBOARD := hh
      rw [hst] at hh'
      cases hh'

set_option maxRecDepth 40000 in
/-- Witness for the amended C6 at a concrete input: the advance from
`roomW6` increments the cursor to 2 and enters SCOREBOARD because 2 is
the reveal-order length. -/
theorem c6_advance_reveal_amended_witness :
    (hostNextReveal roomW6).game.revealIndex = roomW6.game.revealIndex + 1 ∧
    (hostNextReveal roomW6).game.state = Phase.SCOREBOARD := by
  have h := (c6_advance_reveal_amended roomW6).2 (by decide)
  exact ⟨h.1, h.2.1.mpr (by decide)⟩

/-! ### Advance-question (C5) -/

/-- The reachable SCOREBOARD room after the full first question of
`roomW1`'s game. -/
def roomW5 : Room :=
  step .nextReveal (step .nextReveal
    (step (.submit "p2" "s2" "rood" [("p1", "blauw")]) roomW1))

set_option maxRecDepth 60000 in
/-- C5 as stated is false on the code: advancing the question from the
SCOREBOARD `roomW5` (question 1 of 10) does not clear the reveal order —
it re-snapshots it to the current player ids, so it is non-empty. -/
theorem c5_counterexample :
    Reachable roomW5 ∧
    roomW5.game.state = Phase.SCOREBOARD ∧
    roomW5.game.question < roomW5.game.questionsPerRound ∧
    (hostNextQuestion (fun l => l) roomW5).game.revealOrder ≠ [] := by
  refine ⟨?_, by decide, by decide, by decide⟩
  unfold roomW5 roomW1
  exact Reachable.step _ (Reachable.step _ (Reachable.step _ (Reachable.step _
    (Reachable.step _ (Reachable.step _ (Reachable.step _ (Reachable.step _
      (Reachable.step _ (Reachable.init "AAAAAA" "default")))))))))

/-- C5 (amended): in SCOREBOARD, if the question counter is below
questions-per-round the action increments it, pops the next prompt
(refilling the pool by reshuffling the theme's prompt set only when the
pool is empty), clears submissions, match results and scored pairs,
re-snapshots the reveal order to the current player-id ordering, resets
the reveal cursor to 0 and enters ANSWERING; otherwise it increments
the round counter, resets the question counter to 0, clears the prompt,
submissions and reveal state, clears every player's ready flag and
enters LOBBY.  Outside SCOREBOARD it is a no-op. -/
theorem c5_advance_question_amended (shuffle : List String → List String) (room : Room)
    (hperm : ∀ l : List String, (shuffle l).Perm l) :
    (room.game.state ≠ .SCOREBOARD → hostNextQuestion shuffle room = room) ∧
    (room.game.state = .SCOREBOARD → room.game.question < room.game.questionsPerRound →
       (hostNextQuestion shuffle room).game.question = room.game.question + 1 ∧
       (hostNextQuestion shuffle room).game.state = .ANSWERING ∧
       (hostNextQuestion shuffle room).game.submissions = [] ∧
       (hostNextQuestion shuffle room).game.matchMap = [] ∧
       (hostNextQuestion shuffle room).game.scoredPairs = [] ∧
       (hostNextQuestion shuffle room).game.revealOrder = room.players.map (·.1) ∧
       (hostNextQuestion shuffle room).game.revealIndex = 0 ∧
       (room.game.promptPool ≠ [] →
          (hostNextQuestion shuffle room).game.prompt = room.game.promptPool.head? ∧
          (hostNextQuestion shuffle room).game.promptPool = room.game.promptPool.tail) ∧
       (room.game.promptPool = [] →
          (hostNextQuestion shuffle room).game.prompt =
            (shuffle (themeOrDefault room.theme)).head? ∧
          (hostNextQuestion shuffle room).game.promptPool =
            (shuffle (themeOrDefault room.theme)).tail ∧
          ((hostNextQuestion shuffle room).game.prompt.toList ++
            (hostNextQuestion shuffle room).game.promptPool).Perm
              (themeOrDefault room.theme))) ∧
    (room.game.state = .SCOREBOARD → ¬room.game.question < room.game.questionsPerRound →
       (hostNextQuestion shuffle room).game.round = room.game.round + 1 ∧
       (hostNextQuestion shuffle room).game.question = 0 ∧
       (hostNextQuestion shuffle room).game.prompt = none ∧
       (hostNextQuestion shuffle room).game.promptPool = [] ∧
       (hostNextQuestion shuffle room).game.submissions = [] ∧
       (hostNextQuestion shuffle room).game.revealOrder = [] ∧
       (hostNextQuestion shuffle room).game.revealIndex = 0 ∧
       (hostNextQuestion shuffle room).game.matchMap = [] ∧
       (hostNextQuestion shuffle room).game.scoredPairs = [] ∧
       (hostNextQuestion shuffle room).game.state = .LOBBY ∧
       (∀ (k : Pid) (p0 : Player), objGet room.players k = some p0 →
          objGet (hostNextQuestion shuffle room).players k =
            some { p0 with ready := false })) := by
  refine ⟨?_, ?_, ?_⟩
  · intro hne
    rw [hostNextQuestion, if_pos hne]
  · intro hst hlt
    rw [hostNextQuestion, if_neg (fun hh => hh hst), if_pos hlt]
    refine ⟨rfl, rfl, rfl, rfl, rfl, rfl, rfl, ?_, ?_⟩
    · intro hpool
      have hif : (if room.game.promptPool.isEmpty = true
          then shuffle (themeOrDefault room.theme)
          else room.game.promptPool) = room.game.promptPool := by
        rw [if_neg (fun hh => hpool (List.isEmpty_iff.mp hh))]
      constructor
      · show (if room.game.promptPool.isEmpty = true
            then shuffle (themeOrDefault room.theme)
            else room.game.promptPool).head? = _
        rw [hif]
      · show (if room.game.promptPool.isEmpty = true
            then shuffle (themeOrDefault room.theme)
            else room.game.promptPool).tail = _
        rw [hif]
    · intro hpool
      have hif : (if room.game.promptPool.isEmpty = true
          then shuffle (themeOrDefault room.theme)
          else room.game.promptPool) = shuffle (themeOrDefault room.theme) := by
        rw [if_pos (List.isEmpty_iff.mpr hpool)]
      have hne : shuffle (themeOrDefault room.theme) ≠ [] := by
        intro hnil
        have hlen := (hperm (themeOrDefault room.theme)).length_eq
        rw [hnil] at hlen
        exact themeOrDefault_ne_nil room.theme (List.length_eq_zero.mp hlen.symm)
      refine ⟨?_, ?_, ?_⟩
      · show (if room.game.promptPool.isEmpty = true
            then shuffle (themeOrDefault room.theme)
            else room.game.promptPool).head? = _
        rw [hif]
      · show (if room.game.promptPool.isEmpty = true
            then shuffle (themeOrDefault room.theme)
            else room.game.promptPool).tail = _
        rw [hif]
      · show ((if room.game.promptPool.isEmpty = true
            then shuffle (themeOrDefault room.theme)
            else room.game.promptPool).head?.toList ++
          (if room.game.promptPool.isEmpty = true
            then shuffle (themeOrDefault room.theme)
            else room.game.promptPool).tail).Perm (themeOrDefault room.theme)
        rw [hif]
        have hsplit : (shuffle (themeOrDefault room.theme)).head?.toList ++
            (shuffle (themeOrDefault room.theme)).tail =
            shuffle (themeOrDefault room.theme) := by
          cases hS : shuffle (themeOrDefault room.theme) with
          | nil => exact absurd hS hne
          | cons a l => rfl
        rw [hsplit]
        exact hperm _
  · intro hst hge
    rw [hostNextQuestion, if_neg (fun hh => hh hst), if_neg hge]
    refine ⟨rfl, rfl, rfl, rfl, rfl, rfl, rfl, rfl, rfl, rfl, ?_⟩
    intro k p0 hk
    show objGet (room.players.map (fun e => (e.1, ({ e.2 with ready := false } : Player)))) k =
      some ({ p0 with ready := false } : Player)
    rw [objGet_map_val (fun p => ({ p with ready := false } : Player)) room.players k, hk]
    rfl

set_option maxRecDepth 60000 in
/-- Witness for the amended C5 at a concrete input: advancing from the
SCOREBOARD of `roomW5` pops the next prompt of the non-empty pool,
moves to question 2 and re-enters ANSWERING with a fresh snapshot. -/
theorem c5_advance_question_amended_witness :
    (hostNextQuestion (fun l => l) roomW5).game.question = 2 ∧
    (hostNextQuestion (fun l => l) roomW5).game.state = Phase.ANSWERING ∧
    (hostNextQuestion (fun l => l) roomW5).game.revealOrder = ["p1", "p2"] ∧
    (hostNextQuestion (fun l => l) roomW5).game.prompt =
      roomW5.game.promptPool.head? := by
  have h := (c5_advance_question_amended (fun l => l) roomW5
    (fun l => List.Perm.refl l)).2.1 (by decide) (by decide)
  refine ⟨h.1, h.2.1, ?_, (h.2.2.2.2.2.2.2.1 (by decide)).1⟩
  rw [h.2.2.2.2.2.1]
  decide

/-! ### Reveal-cursor invariant (C4) -/

theorem joinRoomCore_eq (room : Room) (name : String) (id : Pid) (sock : String) :
    joinRoomCore room name id sock =
      (if maxPlayersFor room.theme ≤ room.players.length then .error .roomFull
       else if (jsTrim name).take 24 = "" then .error .emptyName
       else .ok { room with players := objSet room.players id ⟨id, (jsTrim name).take 24, false, true, 0, sock⟩ }) := rfl

theorem bumpScore_length (players : List (Pid × Player)) (pr : Pid) :
    (bumpScore players pr).length = players.length := by
  rw [bumpScore]
  cases hp : objGet players pr with
  | none => rfl
  | some p => exact objSet_length_found (by rw [hp]; rfl) _

theorem scoreStep_length (r q : Nat) (mm : List (Pid × List (Pid × Bool))) (t : Pid)
    (acc : List (Pid × Player) × List ScoreKey) (pr : Pid) :
    (scoreStep r q mm t acc pr).1.length = acc.1.length := by
  rw [scoreStep]
  by_cases hpt : pr = t
  · rw [if_pos hpt]
  · rw [if_neg hpt]
    by_cases hks : (⟨r, q, pr, t⟩ : ScoreKey) ∈ acc.2
    · rw [if_pos hks]
    · rw [if_neg hks]
      by_cases hm : matchOf mm t pr = true
      · show (if matchOf mm t pr then bumpScore acc.1 pr else acc.1).length = _
        rw [if_pos hm, bumpScore_length]
      · show (if matchOf mm t pr then bumpScore acc.1 pr else acc.1).length = _
        rw [if_neg hm]

theorem scoreTarget_length (r q : Nat) (mm : List (Pid × List (Pid × Bool))) (t : Pid) :
    ∀ (prs : List Pid) (acc : List (Pid × Player) × List ScoreKey),
    (prs.foldl (scoreStep r q mm t) acc).1.length = acc.1.length := by
  intro prs
  induction prs with
  | nil => intro acc; rfl
  | cons pr rest ih =>
    intro acc
    rw [List.foldl_cons, ih, scoreStep_length]

theorem applyScoring_length (r q : Nat) (mm : List (Pid × List (Pid × Bool)))
    (order : List Pid) :
    ∀ (ts : List Pid) (acc : List (Pid × Player) × List ScoreKey),
    (ts.foldl (fun a t => scoreTarget r q mm t order a) acc).1.length = acc.1.length := by
  intro ts
  induction ts with
  | nil => intro acc; rfl
  | cons t0 rest ih =>
    intro acc
    rw [List.foldl_cons, ih]
    exact scoreTarget_length r q mm t0 order acc

theorem submitAnswers_no_player {room : Room} {playerId : Pid} {sock self : String}
    {predicts : List (Pid × String)}
    (hp : objGet room.players playerId = none) :
    submitAnswers room playerId sock self predicts = room := by
  by_cases hstate : room.game.state = Phase.ANSWERING
  · simp only [submitAnswers, hstate, hp, ne_eq, not_true_eq_false, if_false,
      ite_false, eq_self_iff_true, not_false_iff, ite_true]
  · rw [submitAnswers, if_pos hstate]

theorem submitAnswers_wrong_sock {room : Room} {playerId : Pid} {sock self : String}
    {predicts : List (Pid × String)} {p : Player}
    (hstate : room.game.state = .ANSWERING)
    (hp : objGet room.players playerId = some p) (hsock : ¬p.socketId = sock) :
    submitAnswers room playerId sock self predicts = room := by
  simp only [submitAnswers, hstate, hp, ne_eq, not_true_eq_false, if_false,
    ite_false, eq_self_iff_true, not_false_iff, ite_true]
  rw [if_pos hsock]

theorem submitAnswers_shape (room : Room) (playerId : Pid) (sock self : String)
    (predicts : List (Pid × String)) :
    submitAnswers room playerId sock self predicts = room ∨
    ((submitAnswers room playerId sock self predicts).game.state = room.game.state ∧
     (submitAnswers room playerId sock self predicts).game.revealOrder =
       room.game.revealOrder ∧
     (submitAnswers room playerId sock self predicts).game.revealIndex =
       room.game.revealIndex ∧
     (submitAnswers room playerId sock self predicts).players = room.players) ∨
    (room.game.state = .ANSWERING ∧
     (submitAnswers room playerId sock self predicts).game.state = .REVEAL ∧
     (submitAnswers room playerId sock self predicts).game.revealOrder =
       room.game.revealOrder ∧
     (submitAnswers room playerId sock self predicts).game.revealIndex = 0 ∧
     (submitAnswers room playerId sock self predicts).players.length =
       room.players.length) := by
  by_cases hstate : room.game.state = Phase.ANSWERING
  · cases hp : objGet room.players playerId with
    | none => exact Or.inl (submitAnswers_no_player hp)
    | some p =>
      by_cases hsock : p.socketId = sock
      · by_cases hlen : (objSet room.game.submissions playerId
            ⟨sanitize80 self, cleanPredictsFn room.players predicts⟩).length =
            room.players.length
        · right; right
          rw [submitAnswers_complete hstate hp hsock hlen]
          exact ⟨hstate, rfl, rfl, rfl,
            applyScoring_length _ _ _ _ room.game.revealOrder _⟩
        · right; left
          rw [submitAnswers_incomplete hstate hp hsock hlen]
          exact ⟨rfl, rfl, rfl, rfl⟩
      · exact Or.inl (submitAnswers_wrong_sock hstate hp hsock)
  · exact Or.inl (by rw [submitAnswers, if_pos hstate])

/-- The reveal-cursor invariant, strengthened for the induction. -/
def RoomInv (r : Room) : Prop :=
  r.game.revealIndex ≤ r.game.revealOrder.length ∧
  (r.game.state = .ANSWERING → r.game.revealIndex = 0) ∧
  (r.game.state = .REVEAL → r.game.revealIndex < r.game.revealOrder.length) ∧
  (r.game.state = .LOBBY → r.game.revealOrder = [] ∧ r.game.revealIndex = 0) ∧
  (r.game.state ≠ .LOBBY → r.game.revealOrder ≠ [] ∧ r.players ≠ [])

theorem joinRoomCore_shape (room : Room) (name : String) (id : Pid) (sock : String) :
    (∃ e, joinRoomCore room name id sock = .error e) ∨
    joinRoomCore room name id sock = .ok { room with
      players := objSet room.players id
        ⟨id, (jsTrim name).take 24, false, true, 0, sock⟩ } := by
  rw [joinRoomCore_eq]
  by_cases hfull : maxPlayersFor room.theme ≤ room.players.length
  · rw [if_pos hfull]
    exact Or.inl ⟨_, rfl⟩
  · rw [if_neg hfull]
    by_cases hname : (jsTrim name).take 24 = ""
    · rw [if_pos hname]
      exact Or.inl ⟨_, rfl⟩
    · rw [if_neg hname]
      exact Or.inr rfl

theorem join_step_shape (room : Room) (id : Pid) (sock name : String) :
    step (.join id sock name) room = room ∨
    ((step (.join id sock name) room).game = room.game ∧
     (step (.join id sock name) room).players ≠ []) := by
  rcases joinRoomCore_shape room name id sock with ⟨e, he⟩ | hok
  · left
    show (match joinRoomCore room name id sock with
      | .ok room' => room'
      | .error _ => room) = room
    rw [he]
  · right
    constructor
    · show (match joinRoomCore room name id sock with
        | .ok room' => room'
        | .error _ => room).game = room.game
      rw [hok]
    · show (match joinRoomCore room name id sock with
        | .ok room' => room'
        | .error _ => room).players ≠ []
      rw [hok]
      exact objSet_ne_nil _ _ _

theorem setReady_none {room : Room} {playerId : Pid} {sock : String} {b : Bool}
    (hp : objGet room.players playerId = none) :
    setReady room playerId sock b = room := by
  rw [setReady, hp]

theorem setReady_some {room : Room} {playerId : Pid} {sock : String} {b : Bool}
    {p : Player} (hp : objGet room.players playerId = some p) :
    setReady room playerId sock b =
      (if p.socketId ≠ sock then room
       else { room with players := objSet room.players playerId { p with ready := b } }) := by
  rw [setReady, hp]

theorem ready_step_shape (room : Room) (playerId : Pid) (sock : String) (b : Bool) :
    step (.ready playerId sock b) room = room ∨
    ((step (.ready playerId sock b) room).game = room.game ∧
     (step (.ready playerId sock b) room).players ≠ []) := by
  show setReady room playerId sock b = room ∨
    ((setReady room playerId sock b).game = room.game ∧
     (setReady room playerId sock b).players ≠ [])
  cases hp : objGet room.players playerId with
  | none => exact Or.inl (setReady_none hp)
  | some p =>
    rw [setReady_some hp]
    by_cases hs : p.socketId ≠ sock
    · rw [if_pos hs]
      exact Or.inl rfl
    · rw [if_neg hs]
      exact Or.inr ⟨rfl, objSet_ne_nil _ _ _⟩

theorem disconnectPlayer_none {room : Room} {playerId : Pid}
    (hp : objGet room.players playerId = none) :
    disconnectPlayer room playerId = room := by
  rw [disconnectPlayer, hp]

theorem disconnectPlayer_some {room : Room} {playerId : Pid} {p : Player}
    (hp : objGet room.players playerId = some p) :
    disconnectPlayer room playerId = { room with
      players := objSet room.players playerId
        { p with connected := false, ready := false } } := by
  rw [disconnectPlayer, hp]

theorem disconnect_step_shape (room : Room) (playerId : Pid) :
    step (.disconnect playerId) room = room ∨
    ((step (.disconnect playerId) room).game = room.game ∧
     (step (.disconnect playerId) room).players ≠ []) := by
  show disconnectPlayer room playerId = room ∨
    ((disconnectPlayer room playerId).game = room.game ∧
     (disconnectPlayer room playerId).players ≠ [])
  cases hp : objGet room.players playerId with
  | none => exact Or.inl (disconnectPlayer_none hp)
  | some p =>
    rw [disconnectPlayer_some hp]
    exact Or.inr ⟨rfl, objSet_ne_nil _ _ _⟩

theorem reachable_inv : ∀ {r : Room}, Reachable r → RoomInv r := by
  intro r h
  induction h with
  | init code theme =>
    refine ⟨Nat.le.refl, ?_, ?_, fun _ => ⟨rfl, rfl⟩, fun hh => absurd rfl hh⟩
    · intro hh
      have hh' : Phase.LOBBY = Phase.ANSWERING := hh
      cases hh'
    · intro hh
      have hh' : Phase.LOBBY = Phase.REVEAL := hh
      cases hh'
  | step e hr ih =>
    rcases ih with ⟨h1, h2, h3, h4, h5⟩
    rename_i room
    cases e with
    | join id sock name =>
      rcases join_step_shape room id sock name with hs | ⟨hg, hp⟩
      · rw [hs]; exact ⟨h1, h2, h3, h4, h5⟩
      · unfold RoomInv
        rw [hg]
        exact ⟨h1, h2, h3, h4, fun hne => ⟨(h5 hne).1, hp⟩⟩
    | ready playerId sock b =>
      rcases ready_step_shape room playerId sock b with hs | ⟨hg, hp⟩
      · rw [hs]; exact ⟨h1, h2, h3, h4, h5⟩
      · unfold RoomInv
        rw [hg]
        exact ⟨h1, h2, h3, h4, fun hne => ⟨(h5 hne).1, hp⟩⟩
    | disconnect playerId =>
      rcases disconnect_step_shape room playerId with hs | ⟨hg, hp⟩
      · rw [hs]; exact ⟨h1, h2, h3, h4, h5⟩
      · unfold RoomInv
        rw [hg]
        exact ⟨h1, h2, h3, h4, fun hne => ⟨(h5 hne).1, hp⟩⟩
    | startGame shuffle =>
      show RoomInv (hostStartGame shuffle room)
      rw [hostStartGame_eq]
      by_cases hlt : ((room.players.map (·.2)).filter (·.connected)).length < 2
      · rw [if_pos hlt]; exact ⟨h1, h2, h3, h4, h5⟩
      · rw [if_neg hlt]
        by_cases hall : (!(((room.players.map (·.2)).filter (·.connected)).all (·.ready))) = true
        · rw [if_pos hall]; exact ⟨h1, h2, h3, h4, h5⟩
        · rw [if_neg hall]
          have hplayers : room.players ≠ [] := by
            intro hnil
            rw [hnil] at hlt
            exact hlt (by decide)
          have hmapne : room.players.map
              (fun e => (e.1, ({ e.2 with score := 0 } : Player))) ≠ [] := by
            intro hnil
            exact hplayers (List.map_eq_nil_iff.mp hnil)
          have hordne : (room.players.map
              (fun e => (e.1, ({ e.2 with score := 0 } : Player)))).map (·.1) ≠ [] := by
            intro hnil
            exact hmapne (List.map_eq_nil_iff.mp hnil)
          refine ⟨Nat.zero_le _, fun _ => rfl, ?_, ?_, fun _ => ⟨hordne, hmapne⟩⟩
          · intro hh
            have hh' : Phase.ANSWERING = Phase.REVEAL := hh
            cases hh'
          · intro hh
            have hh' : Phase.ANSWERING = Phase.LOBBY := hh
            cases hh'
    | submit playerId sock self predicts =>
      show RoomInv (submitAnswers room playerId sock self predicts)
      rcases submitAnswers_shape room playerId sock self predicts with hs | hkeep | hfull
      · rw [hs]; exact ⟨h1, h2, h3, h4, h5⟩
      · rcases hkeep with ⟨k1, k2, k3, k4⟩
        unfold RoomInv
        rw [k1, k2, k3, k4]
        exact ⟨h1, h2, h3, h4, h5⟩
      · rcases hfull with ⟨f0, f1, f2, f3, f4⟩
        have hne : room.game.state ≠ .LOBBY := by
          rw [f0]; intro hh; cases hh
        have hord : room.game.revealOrder ≠ [] := (h5 hne).1
        have hpl : room.players ≠ [] := (h5 hne).2
        unfold RoomInv
        rw [f1, f2, f3]
        refine ⟨Nat.zero_le _, ?_, ?_, ?_, ?_⟩
        · intro hh; cases hh
        · intro _
          rcases hS : room.game.revealOrder with _ | ⟨a, l⟩
          · exact absurd hS hord
          · simp
        · intro hh; cases hh
        · intro _
          refine ⟨hord, ?_⟩
          intro hnil
          rw [hnil] at f4
          exact hpl (List.length_eq_zero.mp f4.symm)
    | nextReveal =>
      show RoomInv (hostNextReveal room)
      rw [hostNextReveal]
      by_cases hst : room.game.state ≠ Phase.REVEAL
      · rw [if_pos hst]; exact ⟨h1, h2, h3, h4, h5⟩
      · rw [if_neg hst]
        have hrev : room.game.state = Phase.REVEAL := not_not.mp hst
        have hlt : room.game.revealIndex < room.game.revealOrder.length := h3 hrev
        have hne : room.game.state ≠ .LOBBY := by
          rw [hrev]; intro hh; cases hh
        by_cases hle : room.game.revealOrder.length ≤ room.game.revealIndex + 1
        · rw [if_pos hle]
          refine ⟨?_, ?_, ?_, ?_, fun _ => h5 hne⟩
          · show room.game.revealIndex + 1 ≤ room.game.revealOrder.length
            omega
          · intro hh
            have hh' : Phase.SCOREBOARD = Phase.ANSWERING := hh
            cases hh'
          · intro hh
            have hh' : Phase.SCOREBOARD = Phase.REVEAL := hh
            cases hh'
          · intro hh
            have hh' : Phase.SCOREBOARD = Phase.LOBBY := hh
            cases hh'
        · rw [if_neg hle]
          refine ⟨?_, ?_, ?_, ?_, fun _ => h5 hne⟩
          · show room.game.revealIndex + 1 ≤ room.game.revealOrder.length
            omega
          · intro hh
            have hh' : room.game.state = Phase.ANSWERING := hh
            rw [hrev] at hh'
            cases hh'
          · intro _
            show room.game.revealIndex + 1 < room.game.revealOrder.length
            omega
          · intro hh
            have hh' : room.game.state = Phase.LOBBY := hh
            rw [hrev] at hh'
            cases hh'
    | nextQuestion shuffle =>
      show RoomInv (hostNextQuestion shuffle room)
      rw [hostNextQuestion]
      by_cases hst : room.game.state ≠ Phase.SCOREBOARD
      · rw [if_pos hst]; exact ⟨h1, h2, h3, h4, h5⟩
      · rw [if_neg hst]
        have hsb : room.game.state = Phase.SCOREBOARD := not_not.mp hst
        have hne : room.game.state ≠ .LOBBY := by
          rw [hsb]; intro hh; cases hh
        have hpl : room.players ≠ [] := (h5 hne).2
        by_cases hq : room.game.question < room.game.questionsPerRound
        · rw [if_pos hq]
          have hordne : room.players.map (·.1) ≠ [] := by
            intro hnil
            exact hpl (List.map_eq_nil_iff.mp hnil)
          refine ⟨Nat.zero_le _, fun _ => rfl, ?_, ?_, fun _ => ⟨hordne, hpl⟩⟩
          · intro hh
            have hh' : Phase.ANSWERING = Phase.REVEAL := hh
            cases hh'
          · intro hh
            have hh' : Phase.ANSWERING = Phase.LOBBY := hh
            cases hh'
        · rw [if_neg hq]
          refine ⟨Nat.le.refl, ?_, ?_, fun _ => ⟨rfl, rfl⟩, ?_⟩
          · intro hh
            have hh' : Phase.LOBBY = Phase.ANSWERING := hh
            cases hh'
          · intro hh
            have hh' : Phase.LOBBY = Phase.REVEAL := hh
            cases hh'
          · intro hh
            exact absurd rfl hh

/-- C4 as stated is false on the code: a freshly created room is
reachable, has `revealIndex = 0 = revealOrder.length` (both empty), and
its phase is LOBBY, not SCOREBOARD. -/
theorem c4_counterexample :
    Reachable (createRoom "AAAAAA" "default") ∧
    (createRoom "AAAAAA" "default").game.revealIndex =
      (createRoom "AAAAAA" "default").game.revealOrder.length ∧
    (createRoom "AAAAAA" "default").game.state ≠ Phase.SCOREBOARD :=
  ⟨Reachable.init "AAAAAA" "default", by decide, by decide⟩

/-- C4 (amended): in every reachable room state the reveal cursor
satisfies `0 ≤ revealCursor ≤ len(revealOrder)`, and whenever the
cursor equals the length the phase is SCOREBOARD or the phase is LOBBY
with an empty reveal order (the initial state and the post-round
lobby). -/
theorem c4_reveal_cursor_invariant (r : Room) (h : Reachable r) :
    r.game.revealIndex ≤ r.game.revealOrder.length ∧
    (r.game.revealIndex = r.game.revealOrder.length →
      r.game.state = .SCOREBOARD ∨
      (r.game.state = .LOBBY ∧ r.game.revealOrder = [])) := by
  rcases reachable_inv h with ⟨h1, h2, h3, h4, h5⟩
  refine ⟨h1, ?_⟩
  intro heq
  cases hst : r.game.state with
  | LOBBY => exact Or.inr ⟨rfl, (h4 hst).1⟩
  | ANSWERING =>
    exfalso
    have hzero := h2 hst
    have hord : r.game.revealOrder ≠ [] := (h5 (by rw [hst]; intro hh; cases hh)).1
    rw [hzero] at heq
    exact hord (List.length_eq_zero.mp heq.symm)
  | REVEAL =>
    exfalso
    have := h3 hst
    omega
  | SCOREBOARD => exact Or.inl rfl

/-- Witness for the amended C4 at a concrete input: the freshly created
room satisfies the bound and falls into the LOBBY disjunct. -/
theorem c4_reveal_cursor_invariant_witness :
    (createRoom "AAAAAA" "default").game.revealIndex ≤
      (createRoom "AAAAAA" "default").game.revealOrder.length ∧
    ((createRoom "AAAAAA" "default").game.revealIndex =
      (createRoom "AAAAAA" "default").game.revealOrder.length →
      (createRoom "AAAAAA" "default").game.state = Phase.SCOREBOARD ∨
      ((createRoom "AAAAAA" "default").game.state = Phase.LOBBY ∧
       (createRoom "AAAAAA" "default").game.revealOrder = [])) :=
  c4_reveal_cursor_invariant (createRoom "AAAAAA" "default")
    (Reachable.init "AAAAAA" "default")

/-! ### Mid-question join (C10) -/

theorem nodup_subset_length {l1 l2 : List Pid} (hnd : l1.Nodup)
    (hsub : ∀ x ∈ l1, x ∈ l2) : l1.length ≤ l2.length := by
  calc l1.length = l1.toFinset.card := (List.toFinset_card_of_nodup hnd).symm
  _ ≤ l2.toFinset.card :=
    Finset.card_le_card (fun x hx => List.mem_toFinset.mpr (hsub x (List.mem_toFinset.mp hx)))
  _ ≤ l2.length := l2.toFinset_card_le

/-- C10: joining is accepted in every phase, including mid-question.
A newcomer joining during ANSWERING (fresh id, room not full, valid
name) is absent from the current reveal order (which was snapshotted at
question start, hypotheses `hord`/`hfresh`), but is counted in the
player count the completion check compares the submission count
against, so no submission by another player can fire the
ANSWERING→REVEAL transition before the newcomer also submits; and the
newcomer is excluded from the question's match computation and scoring
(the match map built over the snapshot has no row or column for the
newcomer, and the scoring loop leaves the newcomer's player entry
untouched). -/
theorem c10_mid_question_join (room : Room) (id : Pid) (sock name : String)
    (hstate : room.game.state = .ANSWERING)
    (hfresh : objGet room.players id = none)
    (hord : ∀ t ∈ room.game.revealOrder, (objGet room.players t).isSome = true)
    (hcap : room.players.length < maxPlayersFor room.theme)
    (hname : (jsTrim name).take 24 ≠ "")
    (hsubkeys : ∀ k : Pid, (objGet room.game.submissions k).isSome = true →
       (objGet room.players k).isSome = true)
    (hsubnd : (room.game.submissions.map Prod.fst).Nodup) :
    joinRoomCore room name id sock = .ok { room with
      players := objSet room.players id ⟨id, (jsTrim name).take 24, false, true, 0, sock⟩ } ∧
    id ∉ room.game.revealOrder ∧
    (objSet room.players id
      ⟨id, (jsTrim name).take 24, false, true, 0, sock⟩).length =
      room.players.length + 1 ∧
    (∀ (pid : Pid) (sock' self : String) (predicts : List (Pid × String)), pid ≠ id →
       (submitAnswers { room with players := objSet room.players id ⟨id, (jsTrim name).take 24, false, true, 0, sock⟩ }
         pid sock' self predicts).game.state = .ANSWERING) ∧
    (∀ subs : List (Pid × Submission),
       objGet (buildMatchMap subs room.game.revealOrder) id = none ∧
       (∀ (t : Pid) (row : List (Pid × Bool)),
          objGet (buildMatchMap subs room.game.revealOrder) t = some row →
          objGet row id = none)) ∧
    (∀ (rr qq : Nat) (mm : List (Pid × List (Pid × Bool)))
       (ps : List (Pid × Player)) (sc : List ScoreKey),
       objGet (applyScoring rr qq mm room.game.revealOrder ps sc).1 id = objGet ps id) := by
  have hjoin : joinRoomCore room name id sock = .ok { room with
      players := objSet room.players id ⟨id, (jsTrim name).take 24, false, true, 0, sock⟩ } := by
    rw [joinRoomCore_eq, if_neg (by omega), if_neg hname]
  have hnotin : id ∉ room.game.revealOrder := by
    intro hmem
    have := hord id hmem
    rw [hfresh] at this
    cases this
  have hgrow : (objSet room.players id
      ⟨id, (jsTrim name).take 24, false, true, 0, sock⟩).length =
      room.players.length + 1 := objSet_length_missing hfresh _
  refine ⟨hjoin, hnotin, hgrow, ?_, ?_, ?_⟩
  · intro pid sock' self predicts hpid
    set r1 : Room := { room with players := objSet room.players id ⟨id, (jsTrim name).take 24, false, true, 0, sock⟩ } with hr1
    have hr1state : r1.game.state = .ANSWERING := hstate
    cases hp : objGet r1.players pid with
    | none =>
      rw [submitAnswers_no_player hp]
      exact hr1state
    | some p =>
      by_cases hsock : p.socketId = sock'
      · have hpmem : pid ∈ room.players.map Prod.fst := by
          have : objGet room.players pid = some p := by
            have hne := objGet_objSet_ne room.players id
              (⟨id, (jsTrim name).take 24, false, true, 0, sock⟩ : Player) hpid
            rw [← hne]
            exact hp
          exact objGet_isSome_iff_mem.mp (by rw [this]; rfl)
        have hsubsub : ∀ x ∈ ((objSet r1.game.submissions pid
            ⟨sanitize80 self, cleanPredictsFn r1.players predicts⟩).map Prod.fst),
            x ∈ room.players.map Prod.fst := by
          intro x hx
          rw [← objGet_isSome_iff_mem] at hx
          by_cases hxpid : x = pid
          · subst hxpid
            exact hpmem
          · rw [objGet_objSet_ne _ _ _ hxpid] at hx
            have : (objGet room.game.submissions x).isSome = true := hx
            exact objGet_isSome_iff_mem.mp (hsubkeys x this)
        have hsubnd' : ((objSet r1.game.submissions pid
            ⟨sanitize80 self, cleanPredictsFn r1.players predicts⟩).map Prod.fst).Nodup :=
          objSet_keys_nodup _ hsubnd
        have hlenle : (objSet r1.game.submissions pid
            ⟨sanitize80 self, cleanPredictsFn r1.players predicts⟩).length ≤
            room.players.length := by
          have h1 := nodup_subset_length hsubnd' hsubsub
          have h2 : ((objSet r1.game.submissions pid
              ⟨sanitize80 self, cleanPredictsFn r1.players predicts⟩).map Prod.fst).length =
              (objSet r1.game.submissions pid
              ⟨sanitize80 self, cleanPredictsFn r1.players predicts⟩).length :=
            List.length_map _ _
          have h3 : (room.players.map Prod.fst).length = room.players.length :=
            List.length_map _ _
          omega
        have hlen : (objSet r1.game.submissions pid
            ⟨sanitize80 self, cleanPredictsFn r1.players predicts⟩).length ≠
            r1.players.length := by
          have : r1.players.length = room.players.length + 1 := hgrow
          omega
        rw [submitAnswers_incomplete hr1state hp hsock hlen]
        exact hr1state
      · rw [submitAnswers_wrong_sock hr1state hp hsock]
        exact hr1state
  · intro subs
    refine ⟨buildMatchMap_lookup_none hnotin, ?_⟩
    intro t row hrow
    have hshape := buildMatchMap_rows subs room.game.revealOrder
      room.game.revealOrder [] t row hrow
    rcases hshape with hacc | hmr
    · rw [objGet_nil] at hacc
      cases hacc
    · rw [hmr]
      exact matchRow_lookup_none (Or.inl hnotin)
  · intro rr qq mm ps sc
    exact applyScoring_players_skip rr qq mm room.game.revealOrder
      room.game.revealOrder (ps, sc) id hnotin

/-- The reachable two-player ANSWERING room used for the C10 witness. -/
def roomW10 : Room := step (.startGame (fun l => l)) roomW3

set_option maxRecDepth 40000 in
/-- Witness for C10 at a concrete input: "p3" joins `roomW10`
mid-question; the join succeeds, "p3" is not in the snapshot, the count
rises to 3, and a subsequent submission by "p1" leaves the phase in
ANSWERING. -/
theorem c10_mid_question_join_witness :
    joinRoomCore roomW10 "Cena" "p3" "s3" = .ok { roomW10 with
      players := objSet roomW10.players "p3" ⟨"p3", (jsTrim "Cena").take 24, false, true, 0, "s3"⟩ } ∧
    "p3" ∉ roomW10.game.revealOrder ∧
    (objSet roomW10.players "p3"
      ⟨"p3", (jsTrim "Cena").take 24, false, true, 0, "s3"⟩).length =
      roomW10.players.length + 1 ∧
    (submitAnswers { roomW10 with players := objSet roomW10.players "p3" ⟨"p3", (jsTrim "Cena").take 24, false, true, 0, "s3"⟩ }
      "p1" "s1" "blauw" []).game.state = Phase.ANSWERING := by
  have h := c10_mid_question_join roomW10 "p3" "s3" "Cena"
    (by decide) (by decide) (by decide) (by decide) (by decide)
    (fun k hk => by
      have hnone : objGet roomW10.game.submissions k = none := rfl
      rw [hnone] at hk
      cases hk)
    (by decide)
  exact ⟨h.1, h.2.1, h.2.2.1, h.2.2.2.1 "p1" "s1" "blauw" [] (by decide)⟩
